import Mathlib

/-!
Verification development for the `modular-body` repository (an HTTP
request-body parsing middleware written in TypeScript).

The development shallowly embeds the configuration-resolution code
(`src/bufferEncoding.ts`, `src/mediaTypes.ts`, `src/decompressStream.ts`)
and the per-request dispatch and streaming-decode code (`src/bodyParser.ts`)
as executable Lean definitions, and proves or refutes the frozen claims
C1 - C10 about them.

Modelling conventions, used consistently below:
* JavaScript strings are Lean `String`s; `toLowerCase` is modelled for the
  ASCII range (all names handled by the library are ASCII).
* Node `Buffer`s are modelled by their byte content rendered as text; the
  byte length of a chunk is the length of that text, which is exact for
  the ASCII payloads used in the claims.
* JavaScript objects used as string-keyed records are association lists
  that keep the JS key-insertion order; assigning an existing key updates
  it in place, assigning a fresh key appends.
* Functions that `throw` at configuration time return `Except String`;
  thrown request-time errors are explicit `ThrownError` values.
-/

namespace MB

/-! ## Small JavaScript helpers -/

/-- Lower-case one character, modelling the ASCII part of JS `toLowerCase`. -/
def jsLowerChar (c : Char) : Char :=
  if 65 ≤ c.toNat ∧ c.toNat ≤ 90 then Char.ofNat (c.toNat + 32) else c

/-- Lower-case a string, modelling JS `String.prototype.toLowerCase` on ASCII data. -/
def jsToLower (s : String) : String :=
  ⟨s.data.map jsLowerChar⟩

/-- Truthiness of an optional string, as JS sees it: `undefined` and the empty
string are falsy, any other string is truthy. -/
def jsTruthyS (o : Option String) : Bool :=
  match o with
  | none => false
  | some s => !s.isEmpty

/-- Model of `a || b` for two optional strings (first truthy operand wins). -/
def jsOrS (a b : Option String) : Option String :=
  if jsTruthyS a then a else b

/-- Helper for `jsSetDedup`: keep elements not seen before. -/
def jsSetDedupAux {α : Type} [DecidableEq α] (seen : List α) : List α → List α
  | [] => []
  | x :: xs =>
    if x ∈ seen then jsSetDedupAux seen xs
    else x :: jsSetDedupAux (seen ++ [x]) xs

/-- Model of `[...new Set(xs)]`: remove duplicates keeping first occurrences. -/
def jsSetDedup {α : Type} [DecidableEq α] (l : List α) : List α :=
  jsSetDedupAux [] l

/-- Model of JS `parseInt` on a string: skip leading whitespace, optional
sign, optional `0x`/`0X` prefix for hexadecimal, then the longest digit run;
`none` models `NaN`. -/
def jsParseInt (s : String) : Option Int :=
  let chars := s.data.dropWhile (fun c => c = ' ' ∨ c = '\t' ∨ c = '\n' ∨ c = '\r')
  let signAndRest : Int × List Char :=
    match chars with
    | '-' :: rest => (-1, rest)
    | '+' :: rest => (1, rest)
    | rest => (1, rest)
  let hexAndRest : Bool × List Char :=
    match signAndRest.2 with
    | '0' :: 'x' :: rest => (true, rest)
    | '0' :: 'X' :: rest => (true, rest)
    | rest => (false, rest)
  let isHex := fun (c : Char) => c.isDigit || ('a' ≤ c ∧ c ≤ 'f') || ('A' ≤ c ∧ c ≤ 'F')
  let digits := hexAndRest.2.takeWhile (fun c => if hexAndRest.1 then isHex c else c.isDigit)
  if digits.isEmpty then none
  else
    let base : Nat := if hexAndRest.1 then 16 else 10
    let mag : Nat := digits.foldl (fun acc c =>
      acc * base + (if c.isDigit then c.toNat - 48 else if c.toNat ≥ 97 then c.toNat - 87 else c.toNat - 55)) 0
    some (signAndRest.1 * (mag : Int))

/-- Split a character list at every occurrence of the separator; always
returns at least one (possibly empty) piece, like JS `split` with a
single-character separator. -/
def splitChars (sep : Char) : List Char → List (List Char)
  | [] => [[]]
  | c :: cs =>
    match splitChars sep cs with
    | [] => [[]]
    | r :: rs => if c = sep then [] :: r :: rs else (c :: r) :: rs

/-- String-level split on a single-character separator. -/
def jsSplitOnChar (sep : Char) (s : String) : List String :=
  (splitChars sep s.data).map (fun cs => ⟨cs⟩)

/-- Whitespace test for trimming. -/
def isWsChar (c : Char) : Bool :=
  c = ' ' ∨ c = '\t' ∨ c = '\n' ∨ c = '\r'

/-- Trim of leading/trailing ASCII whitespace (JS `trim` on the data the
library sees). -/
def jsTrim (s : String) : String :=
  ⟨((s.data.dropWhile isWsChar).reverse.dropWhile isWsChar).reverse⟩

/-- Join strings with a separator (structural `Array.prototype.join`). -/
def joinSep (sep : String) : List String → String
  | [] => ""
  | [x] => x
  | x :: xs => x ++ sep ++ joinSep sep xs

/-- Model of `err.status || d` on an optional numeric status (0 is falsy). -/
def jsOrI (o : Option Int) (d : Int) : Int :=
  match o with
  | none => d
  | some n => if n = 0 then d else n

/-- Substring test on character lists: `needle` occurs contiguously in `hay`. -/
def charsStarts : List Char → List Char → Bool
  | [], _ => true
  | _ :: _, [] => false
  | a :: as, b :: bs => a = b && charsStarts as bs

/-- Search for a contiguous occurrence of the pattern anywhere in the text. -/
def charsHas (pat : List Char) : List Char → Bool
  | [] => pat.isEmpty
  | c :: cs => charsStarts pat (c :: cs) || charsHas pat cs

/-- Containment of `pat` as a substring of `s`. -/
def strHasSub (s pat : String) : Bool :=
  charsHas pat.data s.data

/-! ## JavaScript values

Numbers keep `Infinity` as an explicit constructor because the code uses it
as the unbounded-limit sentinel; all concrete byte counts are integers. -/

/-- JS number: a finite integer or positive infinity. -/
inductive JsNum where
  | fin (n : Int)
  | posInf
deriving DecidableEq

/-- JS runtime value as far as the body parser observes them.  `buf`
models a Node `Buffer` by its byte content rendered as text. -/
inductive JsValue where
  | vnull
  | vundef
  | bool (b : Bool)
  | num (n : JsNum)
  | str (s : String)
  | buf (bytes : String)
  | arr (xs : List JsValue)
  | obj (fields : List (String × JsValue))

/-- Error value thrown by a parser / verify function: a message plus the
optional `status` and `type` properties the engine inspects. -/
structure ThrownError where
  message : String
  status : Option Int := none
  etype : Option String := none

/-! ## String-keyed records (JS objects used as dictionaries) -/

/-- Record with string keys in insertion order (JS object model). -/
abbrev RecordSL (V : Type) : Type := List (String × V)

/-- Record lookup (`obj[key]`, `undefined` modelled as `none`). -/
def lookupR {V : Type} (r : RecordSL V) (k : String) : Option V :=
  match r.find? (fun p => p.1 = k) with
  | some p => some p.2
  | none => none

/-- Record update (`obj[key] = v`): existing keys keep their position, new
keys are appended, matching JS insertion-order semantics. -/
def setR {V : Type} (r : RecordSL V) (k : String) (v : V) : RecordSL V :=
  if (r.find? (fun p => p.1 = k)).isSome
  then r.map (fun p => if p.1 = k then (k, v) else p)
  else r ++ [(k, v)]

/-- Record deletion (`delete obj[key]`). -/
def delR {V : Type} (r : RecordSL V) (k : String) : RecordSL V :=
  r.filter (fun p => p.1 ≠ k)

/-! ## mediaTypes.ts -/

/-- Tuple of a split media type, `src/mediaTypes.ts` `MediaType`. -/
abbrev MediaType : Type := String × String

/-- Tuple of split media-type templates; `none` models the `null` that the
source stores for a `*` wildcard component. -/
abbrev MediaTypeTemplate : Type := Option String × Option String

/-- Matcher entry: parsed template or user predicate (`MediaTypeMatchers`). -/
inductive MediaTypeMatcher where
  | tmpl (t : MediaTypeTemplate)
  | fn (f : MediaType → Bool)

/-- String identifier or predicate (`MediaTypeIdentifier`). -/
inductive MediaTypeIdentifier where
  | str (s : String)
  | fn (f : MediaType → Bool)

/-- Identifier or array of identifiers, the `matcher` field of a
configuration before parsing. -/
inductive MatcherIn where
  | one (m : MediaTypeIdentifier)
  | many (ms : List MediaTypeIdentifier)

/-- Model of `getMediaTypeIdentifier`: split on `/`, turn `*` parts into
wildcards, and fail unless the split has exactly two components. -/
def getMediaTypeIdentifier (mediaTypeIdentifier : String) : Except String MediaTypeTemplate :=
  let parts := (jsSplitOnChar '/' mediaTypeIdentifier).map (fun part => if part = "*" then none else some part)
  match parts with
  | [a, b] => .ok (a, b)
  | _ => .error ("Media type identifier \x27" ++ mediaTypeIdentifier ++ "\x27 is invalid.")

/-- Model of `getMediaTypeMatchers`: wrap a single identifier into an array
and parse every string identifier. -/
def getMediaTypeMatchers (mediaTypeIdentifier : MatcherIn) : Except String (List MediaTypeMatcher) :=
  let ids := match mediaTypeIdentifier with
    | .one m => [m]
    | .many ms => ms
  ids.mapM (fun id => match id with
    | .str s => (getMediaTypeIdentifier s).map .tmpl
    | .fn f => .ok (.fn f))

/-- Falsiness of a template component in JS: `null` (wildcard) and the empty
string are both falsy, which is what `!mediaTypeTemplate[0]` tests. -/
def compFalsy (c : Option String) : Bool :=
  match c with
  | none => true
  | some s => s.isEmpty

/-- Model of `matchType`: each component must be falsy (wildcard-like) or
equal to the concrete component. -/
def matchType (mediaTypeTemplate : MediaTypeTemplate) (mediaType : MediaType) : Bool :=
  (compFalsy mediaTypeTemplate.1 || mediaTypeTemplate.1 = some mediaType.1)
    && (compFalsy mediaTypeTemplate.2 || mediaTypeTemplate.2 = some mediaType.2)

/-- Model of `matchAnyType`: some matcher (template or predicate) accepts. -/
def matchAnyType (mediaTypeMatchers : List MediaTypeMatcher) (mediaType : MediaType) : Bool :=
  mediaTypeMatchers.any (fun m => match m with
    | .tmpl t => matchType t mediaType
    | .fn f => f mediaType)

/-! ## bufferEncoding.ts: charset matching and encoding variations -/

/-- Resolved `encodings` field of a `PatchedParser`: `true` (all available)
or a concrete list of names; absence is modelled by `Option` at use sites. -/
inductive Encodings where
  | all
  | names (ns : List String)
deriving DecidableEq

/-- Model of `matchCharsetEncoding` from `src/bufferEncoding.ts`. -/
def matchCharsetEncoding (charsetEncodings : Option Encodings) (charset : Option String)
    (availableBufferEncodingNames : List String) (defaultEncoding : Option String) : Bool :=
  let defaultCharset := jsOrS charset defaultEncoding
  if charsetEncodings.isNone && !(jsTruthyS defaultCharset) then true
  else if charsetEncodings.isNone || !(jsTruthyS defaultCharset) then false
  else match charsetEncodings, defaultCharset with
    | some .all, some dc => availableBufferEncodingNames.contains dc
    | some (.names ns), some dc => ns.contains dc
    | _, _ => false

/-- Record from an encoding name to the list of its equivalent names
(the `EncodingVariations` mapping). -/
abbrev Vars : Type := RecordSL (List String)

/-- Expansion of one name through the variations record (`vars[e] ? vars[e] : [e]`). -/
def expandVar (encodingVariations : Vars) (encoding : String) : List String :=
  match lookupR encodingVariations encoding with
  | some vs => vs
  | none => [encoding]

/-- Model of `normalizeEncodings`: lower-case every name, expand each name
through its equivalence group, and deduplicate keeping first occurrences.
The source also accepts a bare string, which callers wrap as `[s]` here. -/
def normalizeEncodings (encodings : List String) (encodingVariations : Vars) : List String :=
  jsSetDedup ((encodings.map jsToLower).flatMap (fun e => expandVar encodingVariations e))

/-- View of a user `BufferEncoder` as needed by `getEncodingVariations`:
only its declared alias list is inspected there. -/
structure EncoderDecl where
  encodings : List String

/-- Built-in variation groups the source starts from. -/
def builtinEncodingVariations : Vars :=
  [("utf8", ["utf-8", "utf8"]), ("utf-8", ["utf-8", "utf8"]),
   ("ucs2", ["ucs-2", "ucs2"]), ("ucs-2", ["ucs-2", "ucs2"])]

/-- Drop the first `-` of a name, modelling `name.replace(\x27-\x27, \x27\x27)`. -/
def removeFirstDash : List Char → List Char
  | [] => []
  | c :: cs => if c = '-' then cs else c :: removeFirstDash cs

/-- String version of `removeFirstDash`. -/
def jsReplaceDash (s : String) : String :=
  ⟨removeFirstDash s.data⟩

/-- Model of `getEncodingVariations` from `src/bufferEncoding.ts`: start
from the built-in groups, remove user-redeclared built-in aliases, register
every multi-alias user encoder as a group, drop groups below size two, and
compute the node-native variation names to suppress from default expansion. -/
def getEncodingVariations (bufferEncodings : Option (List EncoderDecl)) :
    Except String (Vars × List String) :=
  let encodingVariations := builtinEncodingVariations
  let encodingVariationNames := encodingVariations.map (fun p => p.1)
  let nodeEncodingVariations := encodingVariationNames
  match bufferEncodings with
  | some bes =>
    let addedBufferEncodings := bes.flatMap (fun be => be.encodings)
    if addedBufferEncodings.length > (jsSetDedup addedBufferEncodings).length then
      .error "Same encoding is supplied more than one time in BufferEncoding object."
    else
      let ev1 := (addedBufferEncodings.filter (fun e => encodingVariationNames.contains e)).foldl
        (fun ev encoding =>
          let ev := delR ev encoding
          ev.map (fun p => if p.2.contains encoding then (p.1, p.2.filter (fun v => v ≠ encoding)) else p))
        encodingVariations
      let nodeEV1 := jsSetDedup (nodeEncodingVariations.filter (fun n => !(addedBufferEncodings.contains n)))
      let singleNodeEncodingVariations := nodeEV1.map jsReplaceDash
      let nodeEV2 := nodeEV1.filter (fun n => !(singleNodeEncodingVariations.contains n))
      let ev2 := bes.foldl (fun ev be =>
          if be.encodings.length > 1 then
            be.encodings.foldl (fun ev e => setR ev e be.encodings) ev
          else ev)
        ev1
      let ev3 := ev2.foldl (fun ev p => if p.2.length < 2 then delR ev p.1 else ev) ev2
      .ok (ev3, nodeEV2)
  | none =>
    .ok (encodingVariations, jsSetDedup (nodeEncodingVariations.map jsReplaceDash))

/-! ## bufferEncoding.ts: parser functions (JSON and querystring models)

`JSON.parse` and `querystring.parse` are platform functions; they are
modelled here on the grammar fragment the repository exercises (objects,
arrays, strings with simple escapes, integers, booleans, null; no
number fractions or unicode escapes, and no percent-decoding in the
querystring model - none of which is touched by any claim). -/

/-- Error-or-value result of a configured parser function. -/
abbrev ParserFn : Type := JsValue → Except ThrownError JsValue

/-- Verify function as the engine calls it: buffer, parsed body, encoding
name; the opaque request/response arguments are not modelled. -/
abbrev VerifyFn : Type := JsValue → JsValue → Option String → Except ThrownError Unit

/-- Whitespace skipping for the JSON reader. -/
def jsonSkipWs (cs : List Char) : List Char :=
  cs.dropWhile (fun c => c = ' ' ∨ c = '\t' ∨ c = '\n' ∨ c = '\r')

/-- JSON string body reader (after the opening quote), fuel-bounded. -/
def jsonReadString : Nat → List Char → Except String (List Char × List Char)
  | 0, _ => .error "Unexpected end of JSON input"
  | _ + 1, [] => .error "Unexpected end of JSON input"
  | fuel + 1, c :: cs =>
    if c = '"' then .ok ([], cs)
    else if c = '\\' then
      match cs with
      | e :: cs2 =>
        let dec : Option Char :=
          if e = '"' then some '"'
          else if e = '\\' then some '\\'
          else if e = '/' then some '/'
          else if e = 'n' then some '\n'
          else if e = 't' then some '\t'
          else if e = 'r' then some '\r'
          else none
        match dec with
        | some d => (jsonReadString fuel cs2).map (fun r => (d :: r.1, r.2))
        | none => .error "Bad escaped character in JSON"
      | [] => .error "Unexpected end of JSON input"
    else (jsonReadString fuel cs).map (fun r => (c :: r.1, r.2))

/-- Integer reader for the JSON model. -/
def jsonReadInt (cs : List Char) : Except String (Int × List Char) :=
  let (sign, rest) : Int × List Char :=
    match cs with
    | '-' :: r => (-1, r)
    | r => (1, r)
  let digits := rest.takeWhile Char.isDigit
  if digits.isEmpty then .error "Unexpected token in JSON"
  else
    let mag : Nat := digits.foldl (fun acc c => acc * 10 + (c.toNat - 48)) 0
    .ok (sign * (mag : Int), rest.drop digits.length)

/-- Assignment on JSON object fields: later duplicate keys overwrite in
place, as `JSON.parse` does for own properties. -/
def jsObjSet (fields : List (String × JsValue)) (k : String) (v : JsValue) :
    List (String × JsValue) :=
  setR fields k v

mutual

/-- Fuel-bounded JSON value reader. -/
def jsonReadVal : Nat → List Char → Except String (JsValue × List Char)
  | 0, _ => .error "Unexpected end of JSON input"
  | fuel + 1, input =>
    match jsonSkipWs input with
    | [] => .error "Unexpected end of JSON input"
    | '\x7b' :: rest =>
      (match jsonSkipWs rest with
       | '\x7d' :: r2 => .ok (.obj [], r2)
       | r2 => jsonReadMembers fuel [] r2)
    | '[' :: rest =>
      (match jsonSkipWs rest with
       | ']' :: r2 => .ok (.arr [], r2)
       | r2 => jsonReadElems fuel [] r2)
    | '"' :: rest =>
      (jsonReadString (rest.length + 1) rest).map (fun r => (.str ⟨r.1⟩, r.2))
    | 't' :: 'r' :: 'u' :: 'e' :: rest => .ok (.bool true, rest)
    | 'f' :: 'a' :: 'l' :: 's' :: 'e' :: rest => .ok (.bool false, rest)
    | 'n' :: 'u' :: 'l' :: 'l' :: rest => .ok (.vnull, rest)
    | other => (jsonReadInt other).map (fun r => (.num (.fin r.1), r.2))

/-- Fuel-bounded JSON object member loop (after `\x7b` and any first key). -/
def jsonReadMembers : Nat → List (String × JsValue) → List Char →
    Except String (JsValue × List Char)
  | 0, _, _ => .error "Unexpected end of JSON input"
  | fuel + 1, acc, input =>
    match jsonSkipWs input with
    | '"' :: rest => do
      let k ← jsonReadString (rest.length + 1) rest
      match jsonSkipWs k.2 with
      | ':' :: r2 => do
        let v ← jsonReadVal fuel r2
        let acc := jsObjSet acc ⟨k.1⟩ v.1
        match jsonSkipWs v.2 with
        | ',' :: r3 => jsonReadMembers fuel acc r3
        | '\x7d' :: r3 => .ok (.obj acc, r3)
        | _ => .error "Expected comma or closing brace in JSON object"
      | _ => .error "Expected colon in JSON object"
    | _ => .error "Expected string key in JSON object"

/-- Fuel-bounded JSON array element loop (after `[` with elements ahead). -/
def jsonReadElems : Nat → List JsValue → List Char →
    Except String (JsValue × List Char)
  | 0, _, _ => .error "Unexpected end of JSON input"
  | fuel + 1, acc, input => do
    let v ← jsonReadVal fuel input
    match jsonSkipWs v.2 with
    | ',' :: r2 => jsonReadElems fuel (acc ++ [v.1]) r2
    | ']' :: r2 => .ok (.arr (acc ++ [v.1]), r2)
    | _ => .error "Expected comma or closing bracket in JSON array"

end

/-- Model of the platform `JSON.parse` on the supported fragment. -/
def jsonParse (s : String) : Except String JsValue := do
  let r ← jsonReadVal (2 * s.length + 16) s.data
  if (jsonSkipWs r.2).isEmpty then .ok r.1
  else .error "Unexpected non-whitespace character after JSON"

/-- Textual content of a string-like payload; the engine only hands the
default JSON parser decoded strings (or Buffers, which coerce to their
text), so other shapes are unreachable. -/
def jsToStr (v : JsValue) : String :=
  match v with
  | .str s => s
  | .buf s => s
  | _ => ""

/-- Count of `Object.keys(v)` for the prototype-pollution check; `null` and
`undefined` make `Object.keys` throw a `TypeError`. -/
def jsObjectKeysLen (v : JsValue) : Except String Nat :=
  match v with
  | .vnull => .error "Cannot convert undefined or null to object"
  | .vundef => .error "Cannot convert undefined or null to object"
  | .obj fs => .ok fs.length
  | .arr xs => .ok xs.length
  | .str s => .ok s.length
  | _ => .ok 0

/-- Model of the built-in `application/json` parser from
`defaultMediaTypeParsers`: strict JSON parse followed by the first-level
`__proto__` rejection (`Object.keys(raw.__proto__).length > 0`). An own
`__proto__` key produced by `JSON.parse` shadows the prototype accessor, so
its value is inspected; without one, `Object.keys(Object.prototype)` is
empty and the value passes through unchanged. -/
def jsonMediaParserFn : ParserFn := fun payload =>
  match jsonParse (jsToStr payload) with
  | .error m => .error {message := m}
  | .ok raw =>
    let typeofIsObject := match raw with
      | .obj _ => true
      | .arr _ => true
      | .vnull => true
      | _ => false
    let isArray := match raw with
      | .arr _ => true
      | _ => false
    if typeofIsObject && !isArray then
      match raw with
      | .vnull => .error {message := "Cannot read properties of null (reading \x27__proto__\x27)"}
      | .obj fs =>
        (match fs.find? (fun p => p.1 = "__proto__") with
         | some p =>
           (match jsObjectKeysLen p.2 with
            | .error m => .error {message := m}
            | .ok n =>
              if n > 0 then .error {message := "__proto__ key not allowed in JSON body on main level"}
              else .ok raw)
         | none => .ok raw)
      | _ => .ok raw
    else .ok raw

/-- Model of `parameterCount`: count `&` separators, giving up with `none`
once the count reaches the limit (checked after each increment). -/
def parameterCountAux : List Char → Nat → Nat → Option Nat
  | [], count, _ => some count
  | c :: cs, count, limit =>
    if c = '&' then
      let count := count + 1
      if count = limit then none else parameterCountAux cs count limit
    else parameterCountAux cs count limit

/-- String-level `parameterCount` from `src/bufferEncoding.ts`. -/
def parameterCount (body : String) (limit : Nat) : Option Nat :=
  parameterCountAux body.data 0 limit

/-- Model of `querystring.parse` on `k=v` pairs joined by `&` (the platform
percent-decoding and duplicate-key array collection are not modelled; no
claim exercises them). A `maxKeys` of 0 means unlimited. -/
def qsParse (payload : String) (maxKeys : Nat) : JsValue :=
  let allPieces := jsSplitOnChar '&' payload
  let pieces := if maxKeys = 0 then allPieces else allPieces.take maxKeys
  .obj (pieces.foldl (fun acc piece =>
    let kcs := piece.data.takeWhile (fun c => c ≠ '=')
    let v : String := if kcs.length < piece.data.length then ⟨piece.data.drop (kcs.length + 1)⟩ else ""
    jsObjSet acc ⟨kcs⟩ (.str v)) [])

/-- Closure returned by `getQuerystringParser` for a concrete `maxKeys`. -/
def querystringParserFn (maxKeys : Nat) : ParserFn := fun payload =>
  let s := jsToStr payload
  match parameterCount s maxKeys with
  | some _ => .ok (qsParse s maxKeys)
  | none => .error {message := "too many parameters", status := some 413, etype := some "parameters.too.many"}

/-- Model of `getQuerystringParser`: negative `maxKeys` is a construction
error, `Infinity` maps to the unlimited sentinel 0, and the default is
1000; the returned closure is `querystringParserFn`. -/
def getQuerystringParser (maxKeys : JsNum := .fin 1000) : Except String ParserFn :=
  match maxKeys with
  | .fin n => if n < 0 then .error "maxKeys can not be smaller than 0" else .ok (querystringParserFn n.toNat)
  | .posInf => .ok (querystringParserFn 0)

/-! ## bufferEncoding.ts: default parsers and configuration joining -/

/-- The four well-known default media types. -/
inductive DefaultMediaType where
  | urlencoded
  | json
  | textPlain
  | octetStream
deriving DecidableEq

/-- Identifier string of each default media type. -/
def defaultMediaTypeString : DefaultMediaType → String
  | .urlencoded => "application/x-www-form-urlencoded"
  | .json => "application/json"
  | .textPlain => "text/plain"
  | .octetStream => "application/octet-stream"

/-- Reverse lookup used for `defaultMediaTypeParsers[parser.matcher]`. -/
def stringToDefaultMediaType (s : String) : Option DefaultMediaType :=
  if s = "application/x-www-form-urlencoded" then some .urlencoded
  else if s = "application/json" then some .json
  else if s = "text/plain" then some .textPlain
  else if s = "application/octet-stream" then some .octetStream
  else none

/-- One entry of `defaultMediaTypeParsers`; field presence is `isSome`. -/
structure DefaultParser where
  parser : Option ParserFn := none
  defaultEncoding : Option String := none
  emptyResponse : Option JsValue := none

/-- Model of the `defaultMediaTypeParsers` record; the urlencoded parser is
the `getQuerystringParser()` closure at its default ceiling of 1000. -/
def defaultMediaTypeParsers : DefaultMediaType → DefaultParser
  | .urlencoded =>
    { parser := some (querystringParserFn 1000),
      defaultEncoding := some "utf-8",
      emptyResponse := some (.obj []) }
  | .json =>
    { parser := some jsonMediaParserFn,
      defaultEncoding := some "utf-8",
      emptyResponse := some (.obj []) }
  | .textPlain =>
    { defaultEncoding := some "utf-8",
      emptyResponse := some (.str "") }
  | .octetStream =>
    { emptyResponse := some (.buf "") }

/-- Unit factors of the external `bytes` package (case-insensitive). -/
def bytesUnitFactor (u : String) : Option Int :=
  match jsToLower u with
  | "" => some 1
  | "b" => some 1
  | "kb" => some 1024
  | "mb" => some (1024 * 1024)
  | "gb" => some (1024 * 1024 * 1024)
  | "tb" => some (1024 * 1024 * 1024 * 1024)
  | "pb" => some (1024 * 1024 * 1024 * 1024 * 1024)
  | _ => none

/-- Model of the external `bytes` package on the notation this repository
uses: optional sign, integer magnitude, optional spaces, optional unit;
`none` models the `null` it returns for unparsable input (decimal
magnitudes are not modelled - no claim uses them). -/
def bytesFn (s : String) : Option JsNum :=
  let chars := s.data
  let signAndRest : Int × List Char :=
    match chars with
    | '-' :: r => (-1, r)
    | '+' :: r => (1, r)
    | r => (1, r)
  let digits := signAndRest.2.takeWhile Char.isDigit
  let unit := (signAndRest.2.drop digits.length).dropWhile (fun c => c = ' ')
  if digits.isEmpty then none
  else
    match bytesUnitFactor ⟨unit⟩ with
    | none => none
    | some f =>
      let mag : Nat := digits.foldl (fun acc c => acc * 10 + (c.toNat - 48)) 0
      some (.fin (signAndRest.1 * (mag : Int) * f))

/-- The user-facing `encodings` field: `undefined`, `true`, `false`,
`null`, a bare string, or a list. -/
inductive EncodingsIn where
  | absent
  | tru
  | fls
  | nul
  | str (s : String)
  | list (l : List String)
deriving DecidableEq

/-- JS truthiness of the `encodings` field; note an empty array is truthy. -/
def encodingsInTruthy : EncodingsIn → Bool
  | .absent => false
  | .fls => false
  | .nul => false
  | .str s => !s.isEmpty
  | .tru => true
  | .list _ => true

/-- Result of `getEncodings`: the two optional fields of the returned
object (absent fields are `none`). -/
structure GetEncodingsOut where
  defaultEncoding : Option String := none
  encodings : Option Encodings := none

/-- Model of `getEncodings` from `src/bufferEncoding.ts`.  The source reads
only the `defaultEncoding` and `encodings` properties of the configuration,
which are passed here directly. -/
def getEncodings (parserDefaultEncoding : Option String) (parserEncodings : EncodingsIn)
    (encodingVariations : Vars) (defaultMediaTypeDefaultEncoding : Option String) :
    Except String GetEncodingsOut :=
  let defaultEncoding : Option String :=
    if jsTruthyS parserDefaultEncoding then parserDefaultEncoding else none
  if parserEncodings = .tru then
    .ok {defaultEncoding, encodings := some .all}
  else if !(encodingsInTruthy parserEncodings) then
    if jsTruthyS parserDefaultEncoding && !(jsTruthyS defaultMediaTypeDefaultEncoding) then
      if parserEncodings = .fls ∨ parserEncodings = .nul then
        .error "Parser Configuration Error: When defaultEncoding is set, encoding can not be false or null."
      else
        .ok {defaultEncoding,
             encodings := some (.names (normalizeEncodings [parserDefaultEncoding.getD ""] encodingVariations))}
    else if jsTruthyS defaultMediaTypeDefaultEncoding && parserEncodings = .absent then
      .ok {defaultEncoding := defaultMediaTypeDefaultEncoding, encodings := some .all}
    else
      .ok {}
  else
    let merged := jsSetDedup
      ((if jsTruthyS parserDefaultEncoding then [parserDefaultEncoding.getD ""] else []) ++
        (match parserEncodings with
         | .list l => l
         | .str s => [s]
         | _ => []))
    .ok {defaultEncoding, encodings := some (.names (normalizeEncodings merged encodingVariations))}

/-- The user-facing `inflate` field: `true`, a name, or a list of names. -/
inductive InflateIn where
  | tru
  | one (s : String)
  | many (l : List String)
deriving DecidableEq

/-- Resolved inflate policy of a `PatchedParser`. -/
inductive Inflate where
  | all
  | names (l : List String)
deriving DecidableEq

/-- Model of `getInflate`: wrap a single name, pass lists and `true` through. -/
def getInflate : InflateIn → Inflate
  | .tru => .all
  | .one s => .names [s]
  | .many l => .names l

/-- The user-facing `limit` field: byte-notation string or number. -/
inductive LimitIn where
  | str (s : String)
  | num (n : JsNum)
deriving DecidableEq

/-- JS truthiness of a `limit` value (0 and the empty string are falsy). -/
def limitTruthy : LimitIn → Bool
  | .str s => !s.isEmpty
  | .num (.fin n) => n ≠ 0
  | .num .posInf => true

/-- Conversion applied to a present `limit`: strings go through `bytes`,
numbers pass through (including the `Infinity` sentinel). -/
def limitResolve : LimitIn → Option JsNum
  | .str s => bytesFn s
  | .num n => some n

/-- The user-facing `parser` field: absent, `null` (explicit removal), or a
function. -/
inductive ParserField where
  | absent
  | nul
  | fn (f : ParserFn)

/-- User-facing `ParserConfiguration` (explicit `undefined` assignments to
optional fields are not distinguished from absence except on
`emptyResponse`, where `JsValue.vundef` is available). -/
structure ParserConfiguration where
  matcher : MatcherIn
  inflate : Option InflateIn := none
  limit : Option LimitIn := none
  requireContentLength : Option Bool := none
  parser : ParserField := .absent
  encodings : EncodingsIn := .absent
  defaultEncoding : Option String := none
  emptyResponse : Option JsValue := none
  verify : Option VerifyFn := none

/-- Resolved `PatchedParser` consumed by the dispatcher. -/
structure PatchedParser where
  matcher : List MediaTypeMatcher
  inflate : Inflate
  limit : Option JsNum
  requireContentLength : Bool
  encodings : Option Encodings := none
  defaultEncoding : Option String := none
  emptyResponse : Option JsValue := none
  parser : Option ParserFn := none
  verify : Option VerifyFn := none

/-- One entry of the configuration argument: a bare default-media-type name
or a configuration object. -/
inductive ParserConfigEntry where
  | name (d : DefaultMediaType)
  | cfg (p : ParserConfiguration)

/-- The `ParserConfigurations` argument: one entry or an array of them. -/
inductive ParserConfigurationsIn where
  | one (e : ParserConfigEntry)
  | many (es : List ParserConfigEntry)

/-- Model of `joinParserConfigurations` from `src/bufferEncoding.ts`,
covering its three entry forms: a bare default name, an overlay whose
matcher string equals a default media type, and an arbitrary matcher whose
present fields are passed through after filtering out `null`/`false` values
and normalizing `limit`, `matcher` and `inflate`. -/
def joinParserConfigurations (parserConfigurations : Option ParserConfigurationsIn)
    (defaultLimit : LimitIn) (inflate : InflateIn) (encodingVariations : Vars)
    (requireContentLength : Bool) : Except String (List PatchedParser) :=
  let entries : List ParserConfigEntry := match parserConfigurations with
    | none => [.name .urlencoded, .name .json, .name .textPlain, .name .octetStream]
    | some (.one e) => [e]
    | some (.many es) => es
  let limit := limitResolve defaultLimit
  entries.mapM (fun entry => match entry with
    | .name dmt => do
      let d := defaultMediaTypeParsers dmt
      let matcher ← getMediaTypeMatchers (.one (.str (defaultMediaTypeString dmt)))
      let ge ← getEncodings d.defaultEncoding .absent encodingVariations d.defaultEncoding
      .ok { matcher,
            defaultEncoding := ge.defaultEncoding,
            encodings := ge.encodings,
            parser := d.parser,
            emptyResponse := d.emptyResponse,
            limit,
            inflate := getInflate inflate,
            requireContentLength }
    | .cfg p =>
      match (match p.matcher with
             | .one (.str s) => stringToDefaultMediaType s
             | _ => none) with
      | some dmt => do
        let d := defaultMediaTypeParsers dmt
        let matcher ← getMediaTypeMatchers p.matcher
        let ge ← getEncodings p.defaultEncoding p.encodings encodingVariations d.defaultEncoding
        .ok { matcher,
              defaultEncoding := ge.defaultEncoding,
              encodings := ge.encodings,
              parser := (match p.parser with
                | .fn f => some f
                | .nul => none
                | .absent => d.parser),
              emptyResponse := (match p.emptyResponse with
                | some .vnull => none
                | some v => some v
                | none => d.emptyResponse),
              limit := (match p.limit with
                | some li => if limitTruthy li then limitResolve li else limit
                | none => limit),
              inflate := getInflate (p.inflate.getD inflate),
              verify := p.verify,
              requireContentLength := p.requireContentLength.getD requireContentLength }
      | none => do
        let ge ← getEncodings p.defaultEncoding p.encodings encodingVariations none
        let matcher ← getMediaTypeMatchers p.matcher
        .ok { matcher,
              defaultEncoding := ge.defaultEncoding,
              encodings := ge.encodings,
              limit := (match p.limit with
                | some li => limitResolve li
                | none => limit),
              requireContentLength := (match p.requireContentLength with
                | some true => true
                | _ => requireContentLength),
              inflate := (match p.inflate with
                | some i => getInflate i
                | none => getInflate inflate),
              parser := (match p.parser with
                | .fn f => some f
                | _ => none),
              emptyResponse := (match p.emptyResponse with
                | some .vnull => none
                | some (.bool false) => none
                | some v => some v
                | none => none),
              verify := p.verify })

/-! ## Claims about configuration resolution (C3, C4, C6, C10) -/

/-- The four resolved configurations `joinParserConfigurations` yields for
the default options: fixed order urlencoded, json, text, octet-stream, each
with limit 20480 (= `bytes("20kb")`), inflate `["identity"]`, and the
built-in empty values (empty object, empty object, empty string, empty
buffer). -/
def defaultPatchedParsers : List PatchedParser :=
  [{ matcher := [.tmpl (some "application", some "x-www-form-urlencoded")],
     defaultEncoding := some "utf-8", encodings := some .all,
     parser := some (querystringParserFn 1000), emptyResponse := some (.obj []),
     limit := some (.fin 20480), inflate := .names ["identity"], requireContentLength := false },
   { matcher := [.tmpl (some "application", some "json")],
     defaultEncoding := some "utf-8", encodings := some .all,
     parser := some jsonMediaParserFn, emptyResponse := some (.obj []),
     limit := some (.fin 20480), inflate := .names ["identity"], requireContentLength := false },
   { matcher := [.tmpl (some "text", some "plain")],
     defaultEncoding := some "utf-8", encodings := some .all,
     emptyResponse := some (.str ""),
     limit := some (.fin 20480), inflate := .names ["identity"], requireContentLength := false },
   { matcher := [.tmpl (some "application", some "octet-stream")],
     emptyResponse := some (.buf ""),
     limit := some (.fin 20480), inflate := .names ["identity"], requireContentLength := false }]

/-- C4: calling `joinParserConfigurations` with no parser configurations
and the default options (defaultLimit `20kb`, inflate `identity`,
requireContentLength false, variations from `getEncodingVariations` with no
user encoders) returns exactly the four `PatchedParser` entries of
`defaultPatchedParsers`: order x-www-form-urlencoded, json, text/plain,
octet-stream, each with limit 20480 bytes and the built-in empty values
(empty object, empty object, empty string, empty buffer). -/
theorem C4_default_configurations :
    getEncodingVariations none = .ok (builtinEncodingVariations, ["utf8", "ucs2"])
    ∧ joinParserConfigurations none (.str "20kb") (.one "identity") builtinEncodingVariations false
      = .ok defaultPatchedParsers :=
  ⟨rfl, rfl⟩

/-- C3 (amended): in `joinParserConfigurations` a limit given as a
byte-notation string is converted through `bytes` and a numeric limit
(including the `Infinity` sentinel) is passed through, but an explicit
numeric 0 is kept only in the arbitrary-matcher case; in the
overlay-on-a-default-media-type case a falsy limit (numeric 0 or the empty
string) falls back to the default limit, and a bare default name has no
per-entry limit at all (it always receives the default limit). -/
theorem C3_limit_resolution_amended (li : LimitIn) :
    (joinParserConfigurations
        (some (.many [.name .json,
                      .cfg {matcher := .one (.str "application/json"), limit := some li},
                      .cfg {matcher := .one (.str "application/xml"), limit := some li}]))
        (.str "20kb") (.one "identity") builtinEncodingVariations false).map
      (fun l => l.map (fun p => p.limit))
    = .ok [some (.fin 20480),
           if limitTruthy li then limitResolve li else some (.fin 20480),
           limitResolve li] := by
  cases li with
  | str s => rfl
  | num n => cases n <;> rfl

/-- C3 (counterexample): an explicit numeric limit of 0 on an entry whose
matcher equals the default media type `application/json` is NOT kept as a
zero-byte limit; the falsy 0 makes the joiner fall back to the default
limit of 20480 bytes, contradicting the claim that a numeric 0 is kept in
all three configuration cases. -/
theorem C3_zero_limit_cex :
    (joinParserConfigurations
        (some (.one (.cfg {matcher := .one (.str "application/json"), limit := some (.num (.fin 0))})))
        (.str "20kb") (.one "identity") builtinEncodingVariations false).map
      (fun l => l.map (fun p => p.limit))
      = .ok [some (.fin 20480)]
    ∧ (JsNum.fin 20480) ≠ (JsNum.fin 0) :=
  ⟨rfl, by decide⟩

/-- C6 (amended): `getEncodings` throws the construction-time error
whenever the entry sets a (truthy) `defaultEncoding` while `encodings` is
`false` or `null` and no default-media-type default encoding is in play
(bare entries and arbitrary matchers); but when the entry overlays a
default media type whose own `defaultEncoding` is set (urlencoded, json,
text/plain), the same contradictory combination is silently resolved to an
empty result instead of throwing. -/
theorem C6_encoding_contradiction_amended :
    (∀ (de : Option String) (enc : EncodingsIn) (V : Vars) (dmtde : Option String),
        jsTruthyS de = true → (enc = .fls ∨ enc = .nul) → jsTruthyS dmtde = false →
        getEncodings de enc V dmtde
          = .error "Parser Configuration Error: When defaultEncoding is set, encoding can not be false or null.")
    ∧ (∀ (de : Option String) (enc : EncodingsIn) (V : Vars) (dmtde : Option String),
        jsTruthyS de = true → (enc = .fls ∨ enc = .nul) → jsTruthyS dmtde = true →
        getEncodings de enc V dmtde = .ok {}) := by
  constructor
  · intro de enc V dmtde hde henc hdm
    rcases henc with rfl | rfl <;>
      simp [getEncodings, encodingsInTruthy, hde, hdm]
  · intro de enc V dmtde hde henc hdm
    rcases henc with rfl | rfl <;>
      simp [getEncodings, encodingsInTruthy, hde, hdm]

/-- C6 (witness): both branches of the amended statement at concrete
inputs: a truthy defaultEncoding with `encodings: false` throws when no
default-media-type encoding is supplied, and silently yields the empty
result when one is. -/
theorem C6_encoding_contradiction_witness :
    getEncodings (some "utf-8") .fls builtinEncodingVariations none
      = .error "Parser Configuration Error: When defaultEncoding is set, encoding can not be false or null."
    ∧ getEncodings (some "utf-8") .fls builtinEncodingVariations (some "utf-8") = .ok {} :=
  ⟨C6_encoding_contradiction_amended.1 (some "utf-8") .fls builtinEncodingVariations none rfl (Or.inl rfl) rfl,
   C6_encoding_contradiction_amended.2 (some "utf-8") .fls builtinEncodingVariations (some "utf-8") rfl (Or.inl rfl) rfl⟩

/-- C6 (counterexample): the claim as stated fails: an overlay entry on
`application/json` with `defaultEncoding: "utf-8"` and `encodings: false`
resolves WITHOUT a construction-time error (the contradictory pair is
silently dropped from the resolved configuration). -/
theorem C6_overlay_no_throw_cex :
    joinParserConfigurations
        (some (.one (.cfg {matcher := .one (.str "application/json"),
                           defaultEncoding := some "utf-8", encodings := .fls})))
        (.str "20kb") (.one "identity") builtinEncodingVariations false
      = .ok [{ matcher := [.tmpl (some "application", some "json")],
               parser := some jsonMediaParserFn,
               emptyResponse := some (.obj []),
               limit := some (.fin 20480),
               inflate := .names ["identity"],
               requireContentLength := false }] :=
  rfl

/-- C10: the media-type identifier string `/` is accepted at construction
time (it splits into two empty-string components, passing the length-2
validation) and the resulting template matches every concrete media type,
because `matchType` treats an empty-string component like a wildcard (both
are falsy in the `!template[i]` test). -/
theorem C10_slash_identifier_matches_all :
    getMediaTypeIdentifier "/" = .ok (some "", some "")
    ∧ ∀ mediaType : MediaType, matchType (some "", some "") mediaType = true := by
  refine ⟨rfl, ?_⟩
  intro mt
  rfl

/-! ## Machinery for C5: first-occurrence deduplication -/

/-- Proof-side characterization of first-occurrence deduplication: keep the
head and dedup the tail with all copies of the head removed.  Extensionally
equal to `jsSetDedup` (shown below); this form is the convenient one for
induction. -/
def dedupPure {α : Type} [DecidableEq α] : List α → List α
  | [] => []
  | x :: xs => x :: dedupPure (xs.filter (fun y => y ≠ x))
termination_by l => l.length
decreasing_by
  simp only [List.length_cons]
  exact Nat.lt_succ_of_le (List.length_filter_le _ _)

theorem dedupPure_nil {α : Type} [DecidableEq α] : dedupPure ([] : List α) = [] := by
  rw [dedupPure.eq_def]

theorem dedupPure_cons {α : Type} [DecidableEq α] (x : α) (xs : List α) :
    dedupPure (x :: xs) = x :: dedupPure (xs.filter (fun y => y ≠ x)) := by
  rw [dedupPure.eq_def]

theorem jsSetDedupAux_eq_dedupPure {α : Type} [DecidableEq α] (l : List α) :
    ∀ seen : List α, jsSetDedupAux seen l = dedupPure (l.filter (fun y => y ∉ seen)) := by
  induction l with
  | nil => intro seen; rw [List.filter_nil, dedupPure_nil]; rfl
  | cons x xs ih =>
    intro seen
    by_cases hx : x ∈ seen
    · simp only [jsSetDedupAux, if_pos hx, List.filter_cons]
      have hd : (decide (x ∉ seen)) = false := by simp [hx]
      simp only [hd, Bool.false_eq_true, if_false]
      exact ih seen
    · simp only [jsSetDedupAux, if_neg hx, List.filter_cons]
      have hd : (decide (x ∉ seen)) = true := by simp [hx]
      simp only [hd, if_true]
      simp only [dedupPure_cons]
      congr 1
      rw [ih (seen ++ [x]), List.filter_filter]
      congr 1
      apply List.filter_congr
      intro y _
      by_cases hyx : y = x
      · subst hyx; simp
      · by_cases hys : y ∈ seen <;> simp [hyx, hys]

theorem jsSetDedup_eq_dedupPure {α : Type} [DecidableEq α] (l : List α) :
    jsSetDedup l = dedupPure l := by
  rw [jsSetDedup, jsSetDedupAux_eq_dedupPure]
  congr 1
  apply List.filter_eq_self.mpr
  intro a _
  simp

theorem mem_dedupPure {α : Type} [DecidableEq α] {a : α} :
    ∀ {l : List α}, a ∈ dedupPure l ↔ a ∈ l
  | [] => by rw [dedupPure_nil]
  | x :: xs => by
    rw [dedupPure_cons]
    by_cases hax : a = x
    · subst hax; simp
    · simp only [List.mem_cons, hax, false_or]
      rw [mem_dedupPure (l := xs.filter (fun y => y ≠ x))]
      simp [hax]
termination_by l => l.length
decreasing_by
  simp only [List.length_cons]
  exact Nat.lt_succ_of_le (List.length_filter_le _ _)

theorem dedupPure_append {α : Type} [DecidableEq α] :
    ∀ (p A : List α), dedupPure (p ++ A) = dedupPure p ++ dedupPure (A.filter (fun y => y ∉ p))
  | [], A => by
    rw [List.nil_append, dedupPure_nil, List.nil_append]
    congr 1
    rw [List.filter_eq_self.mpr]
    intro a _
    simp
  | x :: p', A => by
    show dedupPure (x :: (p' ++ A)) = dedupPure (x :: p') ++ _
    rw [dedupPure_cons, dedupPure_cons, List.filter_append,
      dedupPure_append (p'.filter (fun y => y ≠ x)) (A.filter (fun y => y ≠ x))]
    have hf : (A.filter (fun y => y ≠ x)).filter (fun y => y ∉ p'.filter (fun z => z ≠ x))
        = A.filter (fun y => y ∉ x :: p') := by
      rw [List.filter_filter]
      apply List.filter_congr
      intro y _
      by_cases hyx : y = x
      · subst hyx; simp
      · by_cases hyp : y ∈ p' <;> simp [hyx, hyp, List.mem_filter]
    rw [hf, List.cons_append]
termination_by p _ => p.length
decreasing_by
  simp only [List.length_cons]
  exact Nat.lt_succ_of_le (List.length_filter_le _ _)

theorem filter_not_mem_self {α : Type} [DecidableEq α] (xs : List α) :
    xs.filter (fun y => y ∉ xs) = [] := by
  apply List.filter_eq_nil_iff.mpr
  intro a ha
  simp [ha]

theorem dedupPure_double {α : Type} [DecidableEq α] (xs A : List α) :
    dedupPure (xs ++ (xs ++ A)) = dedupPure (xs ++ A) := by
  rw [dedupPure_append xs (xs ++ A), dedupPure_append xs A, List.filter_append,
    filter_not_mem_self, List.nil_append]

theorem dedupPure_flat_const_aux {α γ : Type} [DecidableEq α] (xs A : List α) :
    ∀ (t : List γ), dedupPure (xs ++ (t.flatMap (fun _ => xs) ++ A)) = dedupPure (xs ++ A) := by
  intro t
  induction t with
  | nil => simp
  | cons z t ih =>
    rw [List.flatMap_cons]
    have h2 : xs ++ ((xs ++ t.flatMap (fun _ => xs)) ++ A)
        = xs ++ (xs ++ (t.flatMap (fun _ => xs) ++ A)) := by
      simp [List.append_assoc]
    rw [h2, dedupPure_double, ih]

theorem dedupPure_flat_const {α γ : Type} [DecidableEq α] (xs A : List α)
    (l : List γ) (hl : l ≠ []) :
    dedupPure (l.flatMap (fun _ => xs) ++ A) = dedupPure (xs ++ A) := by
  cases l with
  | nil => exact absurd rfl hl
  | cons z t =>
    rw [List.flatMap_cons, List.append_assoc]
    exact dedupPure_flat_const_aux xs A t

/-! ## Machinery for C5: lower-casing and coherent variation mappings -/

theorem jsLowerChar_idem (c : Char) : jsLowerChar (jsLowerChar c) = jsLowerChar c := by
  unfold jsLowerChar
  by_cases h : 65 ≤ c.toNat ∧ c.toNat ≤ 90
  · rw [if_pos h]
    have hv : (Char.ofNat (c.toNat + 32)).toNat = c.toNat + 32 := by
      have h1 := h.1
      have h2 := h.2
      set n := c.toNat with hn
      interval_cases n <;> decide
    rw [if_neg]
    rw [hv]
    omega
  · rw [if_neg h, if_neg h]

theorem jsToLower_idem (s : String) : jsToLower (jsToLower s) = jsToLower s := by
  unfold jsToLower
  congr 1
  rw [List.map_map]
  apply List.map_congr_left
  intro c _
  exact jsLowerChar_idem c

/-- Coherence of a variations mapping: every group member is itself a key
bound to the same group, groups contain their keys, and all group members
are lower-case.  The mappings `getEncodingVariations` produces from
all-lower-case alias declarations satisfy this (witnessed below via the
decidable checker); a mixed-case user alias violates it. -/
structure VarsCoherent (V : Vars) : Prop where
  mem_self : ∀ k g, lookupR V k = some g → k ∈ g
  closed : ∀ k g, lookupR V k = some g → ∀ m ∈ g, lookupR V m = some g
  lower : ∀ k g, lookupR V k = some g → ∀ m ∈ g, jsToLower m = m

theorem expand_self {V : Vars} (h : VarsCoherent V) (k : String) : k ∈ expandVar V k := by
  unfold expandVar
  cases hk : lookupR V k with
  | none => simp
  | some g => exact h.mem_self k g hk

theorem expand_stable {V : Vars} (h : VarsCoherent V) {k z : String}
    (hz : z ∈ expandVar V k) : expandVar V z = expandVar V k := by
  unfold expandVar at *
  cases hk : lookupR V k with
  | none =>
    rw [hk] at hz
    simp at hz
    subst hz
    rw [hk]
  | some g =>
    rw [hk] at hz
    rw [h.closed k g hk z hz]

theorem expand_lower_of {V : Vars} (h : VarsCoherent V) {x z : String}
    (hz : z ∈ expandVar V (jsToLower x)) : jsToLower z = z := by
  unfold expandVar at hz
  cases hk : lookupR V (jsToLower x) with
  | none =>
    rw [hk] at hz
    simp at hz
    subst hz
    exact jsToLower_idem x
  | some g =>
    rw [hk] at hz
    exact h.lower _ g hk z hz

theorem expand_disj_eq {V : Vars} (h : VarsCoherent V) {a b w : String}
    (hwa : w ∈ expandVar V a) (hwb : w ∈ expandVar V b) :
    expandVar V a = expandVar V b :=
  (expand_stable h hwa).symm.trans (expand_stable h hwb)

theorem block_filter {V : Vars} (h : VarsCoherent V) (m : String) :
    ∀ L : List String,
      (L.flatMap (expandVar V)).filter (fun z => z ∉ expandVar V m)
        = (L.filter (fun k => expandVar V k ≠ expandVar V m)).flatMap (expandVar V) := by
  intro L
  induction L with
  | nil => simp
  | cons k L ih =>
    rw [List.flatMap_cons, List.filter_append, ih, List.filter_cons]
    by_cases hk : expandVar V k = expandVar V m
    · have h1 : (expandVar V k).filter (fun z => z ∉ expandVar V m) = [] := by
        apply List.filter_eq_nil_iff.mpr
        intro z hz
        rw [hk] at hz
        simp [hz]
      have h2 : (decide (expandVar V k ≠ expandVar V m)) = false := by simp [hk]
      rw [h1, h2]
      simp
    · have h1 : (expandVar V k).filter (fun z => z ∉ expandVar V m) = expandVar V k := by
        apply List.filter_eq_self.mpr
        intro z hz
        simp only [decide_eq_true_eq]
        intro hzm
        exact hk (expand_disj_eq h hz hzm)
      have h2 : (decide (expandVar V k ≠ expandVar V m)) = true := by simp [hk]
      rw [h1, h2]
      simp [List.flatMap_cons]

theorem dedup_expand_idem {V : Vars} (h : VarsCoherent V) :
    ∀ L : List String,
      dedupPure ((dedupPure (L.flatMap (expandVar V))).flatMap (expandVar V))
        = dedupPure (L.flatMap (expandVar V))
  | [] => by simp [dedupPure_nil]
  | m :: L' => by
    have hsplit : dedupPure ((m :: L').flatMap (expandVar V))
        = dedupPure (expandVar V m)
          ++ dedupPure ((L'.flatMap (expandVar V)).filter (fun z => z ∉ expandVar V m)) := by
      rw [List.flatMap_cons, dedupPure_append]
    have hK : (L'.flatMap (expandVar V)).filter (fun z => z ∉ expandVar V m)
        = (L'.filter (fun k => expandVar V k ≠ expandVar V m)).flatMap (expandVar V) :=
      block_filter h m L'
    set K := L'.filter (fun k => expandVar V k ≠ expandVar V m) with hKdef
    have hflat1 : (dedupPure (expandVar V m)).flatMap (expandVar V)
        = (dedupPure (expandVar V m)).flatMap (fun _ => expandVar V m) := by
      apply List.flatMap_congr
      intro z hz
      exact expand_stable h (mem_dedupPure.mp hz)
    have hne : dedupPure (expandVar V m) ≠ [] := by
      intro hnil
      have := mem_dedupPure.mpr (expand_self h m)
      rw [hnil] at this
      simp at this
    have havoid : ((dedupPure (K.flatMap (expandVar V))).flatMap (expandVar V)).filter
        (fun z => z ∉ expandVar V m)
        = (dedupPure (K.flatMap (expandVar V))).flatMap (expandVar V) := by
      apply List.filter_eq_self.mpr
      intro z hz
      simp only [decide_eq_true_eq]
      intro hzm
      rw [List.mem_flatMap] at hz
      obtain ⟨w, hw, hzw⟩ := hz
      have hwK := mem_dedupPure.mp hw
      rw [List.mem_flatMap] at hwK
      obtain ⟨k, hkK, hwk⟩ := hwK
      have hkne : expandVar V k ≠ expandVar V m := by
        have := List.mem_filter.mp (hKdef ▸ hkK)
        simpa using this.2
      have h1 : expandVar V w = expandVar V k := expand_stable h hwk
      have h2 : expandVar V w = expandVar V m := expand_disj_eq h hzw hzm
      exact hkne (h1 ▸ h2)
    calc dedupPure ((dedupPure ((m :: L').flatMap (expandVar V))).flatMap (expandVar V))
        = dedupPure ((dedupPure (expandVar V m)).flatMap (expandVar V)
            ++ (dedupPure (K.flatMap (expandVar V))).flatMap (expandVar V)) := by
          rw [hsplit, hK, List.flatMap_append]
      _ = dedupPure ((dedupPure (expandVar V m)).flatMap (fun _ => expandVar V m)
            ++ (dedupPure (K.flatMap (expandVar V))).flatMap (expandVar V)) := by
          rw [hflat1]
      _ = dedupPure (expandVar V m
            ++ (dedupPure (K.flatMap (expandVar V))).flatMap (expandVar V)) := by
          rw [dedupPure_flat_const _ _ _ hne]
      _ = dedupPure (expandVar V m)
            ++ dedupPure (((dedupPure (K.flatMap (expandVar V))).flatMap (expandVar V)).filter
                 (fun z => z ∉ expandVar V m)) := by
          rw [dedupPure_append]
      _ = dedupPure (expandVar V m)
            ++ dedupPure ((dedupPure (K.flatMap (expandVar V))).flatMap (expandVar V)) := by
          rw [havoid]
      _ = dedupPure (expandVar V m) ++ dedupPure (K.flatMap (expandVar V)) := by
          rw [dedup_expand_idem h K]
      _ = dedupPure ((m :: L').flatMap (expandVar V)) := by
          rw [hsplit, hK]
termination_by L => L.length
decreasing_by
  simp only [List.length_cons]
  exact Nat.lt_succ_of_le (List.length_filter_le _ _)

/-- Decidable checker for `VarsCoherent` on a concrete mapping: every entry
key must be bound to a group that contains it, and every member of that
group must be lower-case and bound to the same group. -/
def varsCoherentB (V : Vars) : Bool :=
  V.all (fun e => match lookupR V e.1 with
    | none => false
    | some g => g.contains e.1 && g.all (fun m => (lookupR V m = some g) && (jsToLower m = m)))

theorem lookupR_mem {V : Vars} {k : String} {g : List String}
    (hk : lookupR V k = some g) : (k, g) ∈ V := by
  unfold lookupR at hk
  cases hf : V.find? (fun p => p.1 = k) with
  | none => rw [hf] at hk; exact absurd hk (by simp)
  | some p =>
    rw [hf] at hk
    have hp1 : p.1 = k := by simpa using List.find?_some hf
    have hp2 : p.2 = g := by simpa using hk
    have := List.mem_of_find?_eq_some hf
    rw [← hp1, ← hp2]
    simpa using this

theorem varsCoherentB_sound (V : Vars) (hb : varsCoherentB V = true) : VarsCoherent V := by
  have hall := List.all_eq_true.mp hb
  have main : ∀ k g, lookupR V k = some g →
      k ∈ g ∧ ∀ m ∈ g, lookupR V m = some g ∧ jsToLower m = m := by
    intro k g hk
    have hmem := lookupR_mem hk
    have he := hall (k, g) hmem
    simp only [hk] at he
    have hc := Bool.and_elim_left he
    have ha := Bool.and_elim_right he
    refine ⟨by simpa using hc, ?_⟩
    intro m hm
    have := List.all_eq_true.mp ha m hm
    constructor
    · have := Bool.and_elim_left this
      simpa using this
    · have := Bool.and_elim_right this
      simpa using this
  exact ⟨fun k g hk => (main k g hk).1,
         fun k g hk m hm => ((main k g hk).2 m hm).1,
         fun k g hk m hm => ((main k g hk).2 m hm).2⟩

/-- C5 (amended): `normalizeEncodings` is idempotent for every variations
mapping that is coherent - every group member is lower-case, is itself a
key, and maps back to its own group.  The mappings `getEncodingVariations`
produces from all-lower-case alias declarations (in particular the built-in
default mapping) are coherent, but a mixed-case user alias produces an
incoherent mapping on which idempotence fails (see the counterexample). -/
theorem C5_normalize_idem_amended (L : List String) (V : Vars) (h : VarsCoherent V) :
    normalizeEncodings (normalizeEncodings L V) V = normalizeEncodings L V := by
  unfold normalizeEncodings
  simp only [jsSetDedup_eq_dedupPure]
  have hN : (dedupPure ((L.map jsToLower).flatMap (fun e => expandVar V e))).map jsToLower
      = dedupPure ((L.map jsToLower).flatMap (fun e => expandVar V e)) := by
    have : ∀ z ∈ dedupPure ((L.map jsToLower).flatMap (fun e => expandVar V e)),
        jsToLower z = z := by
      intro z hz
      have hz2 := mem_dedupPure.mp hz
      rw [List.mem_flatMap] at hz2
      obtain ⟨y, hy, hzy⟩ := hz2
      rw [List.mem_map] at hy
      obtain ⟨x, _, rfl⟩ := hy
      exact expand_lower_of h hzy
    calc (dedupPure ((L.map jsToLower).flatMap (fun e => expandVar V e))).map jsToLower
        = (dedupPure ((L.map jsToLower).flatMap (fun e => expandVar V e))).map id := by
          apply List.map_congr_left
          intro z hz
          exact this z hz
      _ = _ := List.map_id _
  rw [hN]
  exact dedup_expand_idem h (L.map jsToLower)

/-- C5 (witness): idempotence at a concrete input over the built-in default
variations mapping (the mapping `getEncodingVariations` yields with no user
encoders, see `C4_default_configurations`). -/
theorem C5_normalize_idem_witness :
    normalizeEncodings (normalizeEncodings ["UTF-8", "ascii"] builtinEncodingVariations)
        builtinEncodingVariations
      = normalizeEncodings ["UTF-8", "ascii"] builtinEncodingVariations :=
  C5_normalize_idem_amended ["UTF-8", "ascii"] builtinEncodingVariations
    (varsCoherentB_sound builtinEncodingVariations (by decide))

/-- The variations mapping `getEncodingVariations` produces from a user
encoder declaring the mixed-case alias group `["A", "b"]`. -/
def mixedCaseVars : Vars :=
  [("utf8", ["utf-8", "utf8"]), ("utf-8", ["utf-8", "utf8"]),
   ("ucs2", ["ucs-2", "ucs2"]), ("ucs-2", ["ucs-2", "ucs2"]),
   ("A", ["A", "b"]), ("b", ["A", "b"])]

/-- C5 (counterexample): the claim as stated is false.  The mapping
produced by `getEncodingVariations` from a user encoder with alias list
`["A", "b"]` makes `normalizeEncodings` non-idempotent on the list
`["b"]`: one pass yields `["A", "b"]`, a second pass lower-cases the `A`
to an ungrouped `a` and yields `["a", "A", "b"]`. -/
theorem C5_normalize_idem_cex :
    getEncodingVariations (some [⟨["A", "b"]⟩]) = .ok (mixedCaseVars, ["utf-8", "ucs-2"])
    ∧ normalizeEncodings ["b"] mixedCaseVars = ["A", "b"]
    ∧ normalizeEncodings (normalizeEncodings ["b"] mixedCaseVars) mixedCaseVars
        = ["a", "A", "b"]
    ∧ normalizeEncodings (normalizeEncodings ["b"] mixedCaseVars) mixedCaseVars
        ≠ normalizeEncodings ["b"] mixedCaseVars := by
  refine ⟨rfl, rfl, rfl, ?_⟩
  intro hcontra
  rw [show normalizeEncodings (normalizeEncodings ["b"] mixedCaseVars) mixedCaseVars
        = ["a", "A", "b"] from rfl,
      show normalizeEncodings ["b"] mixedCaseVars = ["A", "b"] from rfl] at hcontra
  simp at hcontra

/-! ## decompressStream.ts -/

/-- Model of `matchContentEncoding`: `identity` always matches; otherwise
the encoding must be in the configuration inflate list, or in the global
decompressor names when inflate is `true`. -/
def matchContentEncoding (contentEncoding : String) (inflate : Inflate)
    (globalDecompressorNames : List String) : Bool :=
  if contentEncoding = "identity" then true
  else
    let decompressors := match inflate with
      | .all => globalDecompressorNames
      | .names l => l
    decompressors.contains contentEncoding

/-! ## bodyParser.ts: the request model and content-type parsing

`contentType.parse` is the external `content-type` package; it is modelled
on well-formed `type/subtype` values with simple `key=value` parameters
(quoted-string escape sequences are not modelled; no claim uses them). -/

/-- Parsed `Content-Type` header: the lower-cased `type/subtype` string and
the `charset` parameter when present. -/
structure ParsedCT where
  ty : String
  charset : Option String := none

/-- Characters the `content-type` package accepts in a type token. -/
def ctTokenChar (c : Char) : Bool :=
  c.isAlphanum || ("!#$%&\x27*+.^_`|~-".data.contains c)

/-- Validation of the `type/subtype` shape. -/
def validMediaTypeString (t : String) : Bool :=
  match jsSplitOnChar '/' t with
  | [a, b] => (!a.isEmpty) && (!b.isEmpty) && a.data.all ctTokenChar && b.data.all ctTokenChar
  | _ => false

/-- Parameter parsing for the content-type model: `key=value` pieces, keys
lower-cased, surrounding quotes stripped. -/
def parseCTParams (pieces : List String) : Except String (List (String × String)) :=
  pieces.mapM (fun piece => do
    let p := jsTrim piece
    if p.isEmpty then .error "invalid parameter format"
    else
      let kcs := p.data.takeWhile (fun c => c ≠ '=')
      if kcs.length = p.data.length then .error "invalid parameter format"
      else
        let vraw : List Char := p.data.drop (kcs.length + 1)
        let v : List Char := match vraw with
          | '"' :: rest =>
            if rest ≠ [] ∧ rest.getLast? = some '"' then rest.dropLast else vraw
          | _ => vraw
        .ok (jsToLower ⟨kcs⟩, (⟨v⟩ : String)))

/-- Model of `contentType.parse(req)`: throws when the header is absent or
malformed, otherwise lower-cases the type and collects parameters (the last
`charset` parameter wins, as in the package's assignment loop). -/
def parseContentType (header : Option String) : Except String ParsedCT :=
  match header with
  | none => .error "content-type header is missing from object"
  | some s =>
    let pieces := jsSplitOnChar ';' s
    let tyRaw := jsTrim (pieces.headD "")
    if !(validMediaTypeString tyRaw) then .error "invalid media type"
    else do
      let params ← parseCTParams (pieces.drop 1)
      .ok { ty := jsToLower tyRaw,
            charset := ((params.filter (fun p => p.1 = "charset")).getLast?).map (fun p => p.2) }

/-- Request as the dispatcher observes it.  Node lower-cases header names,
so the `Content-Type` capitalized lookup the source performs is kept as its
own (virtually always absent) field for fidelity.  The defensive
`!req.headers` check of the source is outside the model (headers are always
present here), and the body stream itself is passed separately to the
engine model. -/
structure Request where
  method : String
  capitalContentTypeHeader : Option String := none
  contentTypeHeader : Option String := none
  contentEncodingHeader : Option String := none
  contentLengthHeader : Option String := none
  transferEncodingHeader : Option String := none

/-- Error object as delivered to the completion callback: status, message,
`type`, and the context-specific extra fields (prefixed `e` to keep Lean
names). The `mediaType: req.headers[media-type]` extra of the invalid
content-type error is always `undefined` in practice and is not modelled. -/
structure ErrObj where
  status : Option Int := none
  message : String := ""
  etype : Option String := none
  elimit : Option (Option JsNum) := none
  ereceived : Option Nat := none
  eContentEncoding : Option String := none
  eCharset : Option (Option String) := none
  eMediaType : Option MediaType := none
  eBody : Option JsValue := none
  eCode : Option String := none
  eExpected : Option Int := none
  eLength : Option Int := none

/-- Outcome of the dispatcher: a callback error, a bodiless completion
(`callback(null, value?)`), a hand-off to the streaming engine with the
selected configuration, or the unreachable synchronous throw. -/
inductive DispatchResult where
  | err (e : ErrObj)
  | ok (body : Option JsValue)
  | handoff (cfg : PatchedParser) (contentLength : Option Int) (contentEncoding : String)
      (defaultEncoding : Option String)
  | fatal (msg : String)

/-- Methods with the bodiless short-circuit. -/
def gdMethods : List String := ["GET", "DELETE"]

/-- Line 201: `(headers[content-encoding] || "").toLowerCase() || "identity"`. -/
def contentEncodingOf (req : Request) : String :=
  let s := jsToLower (req.contentEncodingHeader.getD "")
  if s.isEmpty then "identity" else s

/-- Line 202: `parseInt(headers[content-length]) || null`; both `NaN` and 0
collapse to `null`. -/
def contentLengthOf (req : Request) : Option Int :=
  match req.contentLengthHeader with
  | none => none
  | some s =>
    match jsParseInt s with
    | none => none
    | some n => if n = 0 then none else some n

/-- Line 215: parse the content type unless a default content type is
configured and no capitalized `Content-Type` key is present. -/
def parsedMediaTypeOf (defaultContentType : Option MediaType) (req : Request) :
    Except String (Option ParsedCT) :=
  if jsTruthyS req.capitalContentTypeHeader ∨ defaultContentType = none then
    (parseContentType req.contentTypeHeader).map some
  else .ok none

/-- Line 228: split the parsed type, or fall back to the configured default. -/
def mediaTypeOfStage (defaultContentType : Option MediaType) (pm : Option ParsedCT) :
    Option MediaType :=
  match pm with
  | some p =>
    let parts := jsSplitOnChar '/' p.ty
    some (parts.headD "", (parts.drop 1).headD "")
  | none => defaultContentType

/-- Line 244: requested charset (lower-cased) or the default-content-type
encoding; `none` models the `false` the source produces. -/
def charsetOfStage (defaultContentTypeEncoding : Option String) (pm : Option ParsedCT) :
    Option String :=
  match pm with
  | some p => p.charset.map jsToLower
  | none => defaultContentTypeEncoding

/-- Line 235: configurations whose matcher accepts the media type. -/
def mediaAllowedOf (parsers : List PatchedParser) (mediaType : MediaType) : List PatchedParser :=
  parsers.filter (fun p => matchAnyType p.matcher mediaType)

/-- Line 247: charset-compatible configurations. -/
def charsetAllowedOf (allowed : List PatchedParser) (encoding : Option String)
    (availableBufferEncodingNames : List String) : List PatchedParser :=
  allowed.filter (fun p =>
    matchCharsetEncoding p.encodings encoding availableBufferEncodingNames p.defaultEncoding)

/-- Line 268: first charset-compatible configuration accepting the
content encoding. -/
def selectedCfgOf (allowedCharsetParsers : List PatchedParser) (contentEncoding : String)
    (availableDecompressorNames : List String) : Option PatchedParser :=
  allowedCharsetParsers.find? (fun p =>
    matchContentEncoding contentEncoding p.inflate availableDecompressorNames)

/-- Helper for the error-message style of the dispatcher. -/
def createErrorString (t : String) (preTypes : List String) : String :=
  "Specified \x27" ++ t ++ "\x27 is not available" ++
    (if preTypes.length > 0 then
      " for this " ++ joinSep " and " (preTypes.map (fun p => "\x27" ++ p ++ "\x27"))
    else "") ++ " on this server."

/-- The 411 error of line 207. -/
def contentLengthMissingErr : ErrObj :=
  { status := some 411,
    message := "Header \x27Content-Length\x27 not specified but required by configuration.",
    etype := some "contentLength.missing" }

/-- The 400 error of line 221 (unparsable content type, non-GET/DELETE). -/
def mediaTypeInvalidErr (parseMsg : String) (ctHeader : Option String) : ErrObj :=
  { status := some 400,
    message := parseMsg ++ ": " ++ ctHeader.getD "undefined",
    etype := some "mediaType.invalid" }

/-- The 415 error of line 237. -/
def mediaTypeUnsupportedErr (mediaType : MediaType) : ErrObj :=
  { status := some 415,
    message := "Unsupported Media Type",
    eMediaType := some mediaType,
    etype := some "mediaType.unsupported" }

/-- The 415 charset errors of lines 250-265, in their three variants. -/
def charsetUnsupportedErr (encoding : Option String)
    (availableBufferEncodingNames : List String) : ErrObj :=
  if !(jsTruthyS encoding) then
    { status := some 415,
      message := "Default charset is not set for this \x27Media-Type\x27. Please provide the \x27charset\x27 for this \x27Media-Type\x27",
      eCharset := some encoding,
      etype := some "charset.unsupported" }
  else if availableBufferEncodingNames.contains (encoding.getD "") then
    { status := some 415,
      message := createErrorString ("charset=" ++ encoding.getD "") ["Media-Type"],
      eCharset := some encoding,
      etype := some "charset.unsupported" }
  else
    { status := some 415,
      message := createErrorString ("charset=" ++ encoding.getD "") [],
      eCharset := some encoding,
      etype := some "charset.unsupported" }

/-- The 415 content-encoding errors of lines 274-285, in both variants. -/
def encodingUnsupportedErr (contentEncoding : String)
    (availableDecompressorNames : List String) : ErrObj :=
  let s := "Content-Encoding: " ++ contentEncoding
  if availableDecompressorNames.contains contentEncoding then
    { status := some 415,
      message := createErrorString s ["Media-Type", "charset"],
      eContentEncoding := some contentEncoding,
      etype := some "encoding.unsupported" }
  else
    { status := some 415,
      message := createErrorString s [],
      eContentEncoding := some contentEncoding,
      etype := some "encoding.unsupported" }

/-- Model of `mediaTypeParser` (the per-request dispatcher) from
`src/bodyParser.ts`, composed of the stage functions above exactly in the
order of the source.  The decompressor/encoder maps the source merely
forwards to `rawBodyParser` are passed to the engine model directly; the
hand-off carries the selected configuration and the scalar arguments the
claims inspect. -/
def mediaTypeParser (parsers : List PatchedParser) (availableDecompressorNames : List String)
    (availableBufferEncodingNames : List String) (requireContentLength : Bool)
    (defaultContentTypeEncoding : Option String) (defaultContentType : Option MediaType)
    (req : Request) : DispatchResult :=
  let contentEncoding := contentEncodingOf req
  let contentLength := contentLengthOf req
  let transferEncoding := req.transferEncodingHeader
  if contentLength = none ∧ requireContentLength = true then .err contentLengthMissingErr
  else
    match parsedMediaTypeOf defaultContentType req with
    | .error msg =>
      if req.method ∈ gdMethods then .ok none
      else .err (mediaTypeInvalidErr msg req.contentTypeHeader)
    | .ok pm =>
      match mediaTypeOfStage defaultContentType pm with
      | none => .fatal "Header \x27Content-Type\x27 has to be specified"
      | some mediaType =>
        let allowedMediaTypeParsers := mediaAllowedOf parsers mediaType
        if allowedMediaTypeParsers.isEmpty then .err (mediaTypeUnsupportedErr mediaType)
        else
          let encoding := charsetOfStage defaultContentTypeEncoding pm
          let allowedCharsetParsers :=
            charsetAllowedOf allowedMediaTypeParsers encoding availableBufferEncodingNames
          if allowedCharsetParsers.isEmpty then
            .err (charsetUnsupportedErr encoding availableBufferEncodingNames)
          else
            let parseConfiguration :=
              selectedCfgOf allowedCharsetParsers contentEncoding availableDecompressorNames
            if (transferEncoding = none ∧ contentLength = none) ∨ req.method ∈ gdMethods then
              .ok (parseConfiguration.bind (fun c => c.emptyResponse))
            else
              match parseConfiguration with
              | none => .err (encodingUnsupportedErr contentEncoding availableDecompressorNames)
              | some cfg =>
                let de := jsOrS encoding cfg.defaultEncoding
                let defaultEncoding := if jsTruthyS de then de else none
                .handoff cfg contentLength contentEncoding defaultEncoding

/-! ## Claims about the dispatcher (C1, C9) -/

/-- C1 (amended): for a request with method GET or DELETE, or with neither
content-length nor transfer-encoding, that passes the content-length
policy check, the dispatcher never hands off to the streaming engine (so
the configured parser function is never invoked) and completes with the
selected configuration's empty value (or no value): when the content type
fails to parse on GET/DELETE it completes with no value, and when media
type and charset selection succeed it completes with the selected
configuration's empty value even if no configuration accepts the request's
content-encoding.  (Unsupported media type or charset, and the
content-length requirement, still produce their errors first - see the
counterexample for the claim as stated.) -/
theorem C1_bodiless_amended (parsers : List PatchedParser) (adn abn : List String)
    (rcl : Bool) (dcte : Option String) (dct : Option MediaType) (req : Request)
    (hbody : (req.transferEncodingHeader = none ∧ contentLengthOf req = none)
      ∨ req.method ∈ gdMethods)
    (hcl : ¬(contentLengthOf req = none ∧ rcl = true)) :
    (∀ msg, parsedMediaTypeOf dct req = .error msg → req.method ∈ gdMethods →
      mediaTypeParser parsers adn abn rcl dcte dct req = .ok none)
    ∧ (∀ pm mt, parsedMediaTypeOf dct req = .ok pm → mediaTypeOfStage dct pm = some mt →
        (mediaAllowedOf parsers mt).isEmpty = false →
        (charsetAllowedOf (mediaAllowedOf parsers mt) (charsetOfStage dcte pm) abn).isEmpty = false →
        mediaTypeParser parsers adn abn rcl dcte dct req
          = .ok ((selectedCfgOf
              (charsetAllowedOf (mediaAllowedOf parsers mt) (charsetOfStage dcte pm) abn)
              (contentEncodingOf req) adn).bind (fun c => c.emptyResponse))) := by
  constructor
  · intro msg hpm hgd
    simp only [mediaTypeParser, hpm]
    simp [hcl, hgd]
  · intro pm mt hpm hmt hma hcs
    simp only [mediaTypeParser, hpm, hmt]
    simp [hcl, hma, hcs, hbody]

/-- Request of the C1 counterexample: a GET whose content type parses but
matches no configuration. -/
def c1CexReq : Request :=
  {method := "GET", contentTypeHeader := some "foo/bar"}

/-- C1 (counterexample): the claim as stated is false.  A GET request with
content-type `foo/bar` (no content-length, no transfer-encoding) against
the default configurations is answered with the 415
`mediaType.unsupported` error, not with an empty-value completion, even
though the method is GET: the media-type check runs before the bodiless
short-circuit. -/
theorem C1_claim_cex :
    mediaTypeParser defaultPatchedParsers ["identity"] ["utf-8", "utf8"] false none none c1CexReq
      = .err (mediaTypeUnsupportedErr ("foo", "bar"))
    ∧ (mediaTypeUnsupportedErr ("foo", "bar")).etype = some "mediaType.unsupported"
    ∧ ∀ v, DispatchResult.err (mediaTypeUnsupportedErr ("foo", "bar")) ≠ DispatchResult.ok v := by
  refine ⟨rfl, rfl, ?_⟩
  intro v h
  exact DispatchResult.noConfusion h

/-- Request of the first C1 witness conjunct: bodiless GET with a
supported content type. -/
def c1WitnessReq : Request :=
  {method := "GET", contentTypeHeader := some "application/json"}

/-- C1 (witness): both conjuncts of the amended theorem at concrete
inputs: a GET with content-type `application/json` against the defaults
completes with the json empty object, and a GET with no content type at
all completes with no value. -/
theorem C1_bodiless_witness :
    mediaTypeParser defaultPatchedParsers ["identity"] ["utf-8", "utf8"] false none none c1WitnessReq
      = .ok (some (.obj []))
    ∧ mediaTypeParser defaultPatchedParsers ["identity"] ["utf-8", "utf8"] false none none
        {method := "GET"} = .ok none := by
  constructor
  · have h := (C1_bodiless_amended defaultPatchedParsers ["identity"] ["utf-8", "utf8"] false
        none none c1WitnessReq (Or.inr (by decide)) (by simp)).2
      (some {ty := "application/json"}) ("application", "json") rfl rfl rfl rfl
    rw [h]
    rfl
  · exact (C1_bodiless_amended defaultPatchedParsers ["identity"] ["utf-8", "utf8"] false
      none none {method := "GET"} (Or.inr (by decide)) (by simp)).1
      "content-type header is missing from object" rfl (by decide)

/-- C9: a content-length header whose string parses to 0 (such as `"0"`)
or does not parse to a number is treated exactly like an absent header:
the dispatch result is identical to the same request without the header;
with `requireContentLength` enabled the request is rejected with the 411
`contentLength.missing` error even though the header is present; and with
no transfer-encoding (and the policy off) a request that passes media-type
and charset selection takes the bodiless short-circuit, completing with
the selected configuration's empty value without any hand-off to the
stream-reading engine. -/
theorem C9_zero_content_length (parsers : List PatchedParser) (adn abn : List String)
    (rcl : Bool) (dcte : Option String) (dct : Option MediaType) (req : Request)
    (hpresent : ∃ s, req.contentLengthHeader = some s)
    (h0 : contentLengthOf req = none) :
    mediaTypeParser parsers adn abn rcl dcte dct req
      = mediaTypeParser parsers adn abn rcl dcte dct {req with contentLengthHeader := none}
    ∧ (rcl = true →
        mediaTypeParser parsers adn abn rcl dcte dct req = .err contentLengthMissingErr)
    ∧ (req.transferEncodingHeader = none → rcl = false →
        ∀ pm mt, parsedMediaTypeOf dct req = .ok pm → mediaTypeOfStage dct pm = some mt →
          (mediaAllowedOf parsers mt).isEmpty = false →
          (charsetAllowedOf (mediaAllowedOf parsers mt) (charsetOfStage dcte pm) abn).isEmpty = false →
          mediaTypeParser parsers adn abn rcl dcte dct req
            = .ok ((selectedCfgOf
                (charsetAllowedOf (mediaAllowedOf parsers mt) (charsetOfStage dcte pm) abn)
                (contentEncodingOf req) adn).bind (fun c => c.emptyResponse))) := by
  refine ⟨?_, ?_, ?_⟩
  · have h0e : contentLengthOf {req with contentLengthHeader := none} = none := rfl
    simp only [mediaTypeParser, h0, h0e]
    rfl
  · intro hrcl
    subst hrcl
    simp only [mediaTypeParser, h0]
    simp
  · intro hte hrcl pm mt hpm hmt hma hcs
    subst hrcl
    simp only [mediaTypeParser, hpm, hmt]
    simp [hma, hcs, hte, h0]

/-- Request of the C9 witness: POST, content-type `application/json`,
content-length header literally `"0"`. -/
def c9WitnessReq : Request :=
  {method := "POST", contentTypeHeader := some "application/json", contentLengthHeader := some "0"}

/-- C9 (witness): the equality with the header-erased request and the
bodiless empty-object completion, at the concrete header string `"0"`. -/
theorem C9_zero_content_length_witness :
    mediaTypeParser defaultPatchedParsers ["identity"] ["utf-8", "utf8"] false none none c9WitnessReq
      = mediaTypeParser defaultPatchedParsers ["identity"] ["utf-8", "utf8"] false none none
          {c9WitnessReq with contentLengthHeader := none}
    ∧ mediaTypeParser defaultPatchedParsers ["identity"] ["utf-8", "utf8"] false none none c9WitnessReq
      = .ok (some (.obj [])) := by
  constructor
  · exact (C9_zero_content_length defaultPatchedParsers ["identity"] ["utf-8", "utf8"] false
      none none c9WitnessReq ⟨"0", rfl⟩ rfl).1
  · have h := (C9_zero_content_length defaultPatchedParsers ["identity"] ["utf-8", "utf8"] false
      none none c9WitnessReq ⟨"0", rfl⟩ rfl).2.2 rfl rfl
      (some {ty := "application/json"}) ("application", "json") rfl rfl rfl rfl
    rw [h]
    rfl

/-! ## bodyParser.ts: the streaming decode engine (`rawBodyParser`)

The engine is embedded as a state machine folded over the list of stream
events the (possibly decompressed) stream delivers.  The completion
callback's single delivery is the `outcome` field of the final state; the
sync/next-tick scheduling of the callback is timing only and not part of
the model. -/

/-- Buffer encoder as the engine consumes it: the chunked (streaming)
variant with `onData`/`onEnd`/`reduce`, or the whole-buffer variant with
`transform`.  Text stands for both raw bytes and decoded pieces, per the
Buffer convention of this file. -/
inductive BufferEncoderM where
  | chunked (onData : String → String) (onEnd : Unit → String) (reduce : List String → String)
  | unchunked (transform : String → String)

/-- Model of the StringDecoder-backed native encoder that
`getAvailableBufferEncodings` builds for a node encoding, on buffers that
are complete sequences: `write` returns the decoded text, `end` flushes
nothing, `reduce` joins the pieces. -/
def nativeUtf8Encoder : BufferEncoderM :=
  .chunked (fun b => b) (fun _ => "") (fun arr => String.join arr)

/-- Chunk transform in the data handler; the non-chunked fallback is
unreachable because the dispatcher sets the stream-decoder flag only for
chunked encoders. -/
def bufOnData (be : Option BufferEncoderM) (chunk : String) : String :=
  match be with
  | some (.chunked f _ _) => f chunk
  | _ => chunk

/-- End-of-stream flush of the chunked encoder. -/
def bufOnEnd (be : Option BufferEncoderM) : String :=
  match be with
  | some (.chunked _ e _) => e ()
  | _ => ""

/-- Reduction of accumulated decoded pieces. -/
def bufReduce (be : Option BufferEncoderM) (chunks : List String) : String :=
  match be with
  | some (.chunked _ _ r) => r chunks
  | _ => String.join chunks

/-- Whole-buffer transform of the unchunked encoder; the chunked fallback
is unreachable on the path that uses it. -/
def bufTransform (be : Option BufferEncoderM) (buffer : String) : String :=
  match be with
  | some (.unchunked t) => t buffer
  | _ => buffer

/-- Events the engine's listeners observe on the stream. -/
inductive StreamEvent where
  | data (chunk : String)
  | endOk
  | errEv (code : Option String) (message : String)
  | aborted
  | close

/-- Terminal outcome delivered through the completion callback. -/
inductive RawOutcome where
  | err (e : ErrObj)
  | ok (body : Option JsValue)

/-- Per-request engine state: the `complete` flag guarding every handler,
the `closed` flag modelling listener detachment on `close`, the running
received-byte counter, the accumulated chunks, the verification buffer,
and the single recorded completion. -/
structure RawState where
  complete : Bool := false
  closed : Bool := false
  received : Nat := 0
  chunks : List String := []
  verifyBuf : List String := []
  outcome : Option RawOutcome := none

/-- Model of `value || default` on the optional `type` of a thrown error. -/
def jsOrStrVal (o : Option String) (d : String) : String :=
  match o with
  | none => d
  | some s => if s.isEmpty then d else s

/-- Depth-bounded model of `JSON.stringify` for the verify-error detail
(depth 1000 exceeds anything a JS engine stack survives; no claim reads
this string). -/
def jsStringifyF : Nat → JsValue → String
  | 0, _ => ""
  | fuel + 1, v =>
    match v with
    | .vnull => "null"
    | .vundef => "undefined"
    | .bool b => if b then "true" else "false"
    | .num (.fin n) => toString n
    | .num .posInf => "null"
    | .str s => "\"" ++ s ++ "\""
    | .buf s => "\"" ++ s ++ "\""
    | .arr xs => "[" ++ joinSep "," (xs.map (fun x => jsStringifyF fuel x)) ++ "]"
    | .obj fs =>
      "\x7b" ++ joinSep "," (fs.map (fun p => "\"" ++ p.1 ++ "\":" ++ jsStringifyF fuel p.2)) ++ "\x7d"

/-- Top-level stringify used in the verify-error detail. -/
def jsStringify (v : JsValue) : String :=
  jsStringifyF 1000 v

/-- The 413 error of the data handler, carrying limit and received. -/
def tooLargeErr (limit : JsNum) (received : Nat) : ErrObj :=
  { status := some 413, message := "request entity too large",
    elimit := some (some limit), ereceived := some received,
    etype := some "entity.too.large" }

/-- The 400 abort error. -/
def abortedErr : ErrObj :=
  { status := some 400, message := "request aborted",
    eCode := some "ECONNABORTED", etype := some "request.aborted" }

/-- The 400 decompression data-format error. -/
def headerCheckErr (limit : Option JsNum) (received : Nat) : ErrObj :=
  { status := some 400, message := "incorrect header check",
    elimit := some limit, ereceived := some received, etype := some "header.check" }

/-- The 400 decompression truncation error. -/
def eofErr (limit : Option JsNum) (received : Nat) : ErrObj :=
  { status := some 400, message := "unexpected end of file",
    elimit := some limit, ereceived := some received, etype := some "end.of.file" }

/-- The 400 declared-length mismatch error. -/
def sizeInvalidErr (contentLength : Int) (received : Nat) : ErrObj :=
  { status := some 400, message := "request size did not match content length",
    eExpected := some contentLength, eLength := some contentLength,
    ereceived := some received, etype := some "request.size.invalid" }

/-- Other stream errors pass through `done(err)` unchanged. -/
def streamPassErr (code : Option String) (message : String) : ErrObj :=
  { message := message, eCode := code }

/-- The wrapped error when the identity pseudo-decompressor is requested
but not available: the inner `unsupported.content.encoding` type survives
the `err.type || "decompression.failed"` fallback. -/
def identityNotAllowedErr : ErrObj :=
  { status := some 415,
    message := "Decompression failed: server does not allow uncompressed requests.",
    eContentEncoding := some "identity",
    etype := some "unsupported.content.encoding" }

/-- Model of the `decompressStream` helper plus the catch-wrapper around
it: identity passes through when available, a non-identity encoding uses
its registered factory (a missing factory is the JS TypeError of calling
`undefined`, wrapped as 415 `decompression.failed`), and identity without
availability throws the typed `unsupported.content.encoding` error. -/
def decompressCheck (availableDecompressorNames : List String)
    (decompressorKeys : List String) (contentEncoding : String) : Except ErrObj Unit :=
  if contentEncoding = "identity" ∧ availableDecompressorNames.contains "identity" = true then .ok ()
  else if contentEncoding ≠ "identity" then
    if decompressorKeys.contains contentEncoding then .ok ()
    else .error { status := some 415,
                  message := "Decompression failed: availableDecompressors[contentEncoding] is not a function",
                  eContentEncoding := some contentEncoding,
                  etype := some "decompression.failed" }
  else .error identityNotAllowedErr

/-- Strict `received > limit` comparison against a JS number. -/
def limitExceededVal (received : Nat) : JsNum → Bool
  | .fin i => (received : Int) > i
  | .posInf => false

/-- Model of the tail of `onEnd` (after the error cases): declared-length
check, empty-body completion, decode, parse, verify. -/
def rawFinish (cfg : PatchedParser) (contentLength : Option Int) (contentEncoding : String)
    (defaultEncoding : Option String) (bufEnc : Option BufferEncoderM)
    (isStream : Bool) (st : RawState) : RawOutcome :=
  let sizeBad : Bool := match contentLength with
    | some cl => ((st.received : Int) ≠ cl) && (contentEncoding = "identity")
    | none => false
  if sizeBad then
    .err (sizeInvalidErr (contentLength.getD 0) st.received)
  else
    let chunks := if isStream then st.chunks ++ [bufOnEnd bufEnc] else st.chunks
    if st.received = 0 then .ok cfg.emptyResponse
    else
      let buffer : JsValue :=
        if isStream then .str (bufReduce bufEnc chunks) else .buf (String.join chunks)
      let decoded : JsValue :=
        if cfg.encodings.isSome ∧ isStream = false ∧ bufEnc.isSome then
          .str (bufTransform bufEnc (String.join chunks))
        else buffer
      match (match cfg.parser with
             | some f => f decoded
             | none => .ok decoded) with
      | .error e =>
        .err { status := some (jsOrI e.status 400),
               message := "Parse error: " ++ e.message,
               eBody := some decoded,
               etype := some (jsOrStrVal e.etype "entity.parse.failed") }
      | .ok body =>
        match cfg.verify with
        | some vf =>
          let vbuf : JsValue := if isStream then .buf (String.join st.verifyBuf) else buffer
          match vf vbuf body defaultEncoding with
          | .ok _ => .ok (some body)
          | .error e =>
            .err { status := some (jsOrI e.status 403),
                   message := "Verify function did not match: " ++ e.message,
                   eBody := some (match body with
                     | .str s => .str s
                     | other => .str (jsStringify other)),
                   etype := some (jsOrStrVal e.etype "entity.verify.failed") }
        | none => .ok (some body)

/-- One engine step: listeners are detached after `close`; every handler
returns immediately once `complete` is set; the data handler counts bytes,
raises the 413 on limit excess and still pushes the chunk; the end/error
handler maps the decompression error codes, passes other errors through,
and otherwise finishes; `close` clears the buffered chunks. -/
def rawStep (cfg : PatchedParser) (contentLength : Option Int) (contentEncoding : String)
    (defaultEncoding : Option String) (limit : Option JsNum) (bufEnc : Option BufferEncoderM)
    (isStream : Bool) (st : RawState) (ev : StreamEvent) : RawState :=
  if st.closed then st
  else match ev with
  | .data chunk =>
    if st.complete then st
    else
      let rcv := st.received + chunk.length
      let st1 : RawState :=
        match limit with
        | some l =>
          if limitExceededVal rcv l then
            { st with received := rcv, complete := true,
                      outcome := some (.err (tooLargeErr l rcv)) }
          else { st with received := rcv }
        | none => { st with received := rcv }
      let st2 := { st1 with chunks := st1.chunks ++ [if isStream then bufOnData bufEnc chunk else chunk] }
      if cfg.verify.isSome ∧ isStream = true then { st2 with verifyBuf := st2.verifyBuf ++ [chunk] }
      else st2
  | .endOk =>
    if st.complete then st
    else { st with complete := true,
                   outcome := some (rawFinish cfg contentLength contentEncoding defaultEncoding bufEnc isStream st) }
  | .errEv code message =>
    if st.complete then st
    else if code = some "Z_DATA_ERROR" then
      { st with complete := true, outcome := some (.err (headerCheckErr limit st.received)) }
    else if code = some "Z_BUF_ERROR" then
      { st with complete := true, outcome := some (.err (eofErr limit st.received)) }
    else { st with complete := true, outcome := some (.err (streamPassErr code message)) }
  | .aborted =>
    if st.complete then st
    else { st with complete := true, outcome := some (.err abortedErr) }
  | .close => { st with closed := true, chunks := [] }

/-- Engine state before any event: fresh, unless decompressor construction
already failed, in which case the failure is the recorded completion. -/
def rawInit (availableDecompressorNames decompressorKeys : List String)
    (contentEncoding : String) : RawState :=
  match decompressCheck availableDecompressorNames decompressorKeys contentEncoding with
  | .ok _ => {}
  | .error e => { complete := true, outcome := some (.err e) }

/-- Engine state after processing the whole event list. -/
def rawStateRun (availableDecompressorNames decompressorKeys : List String)
    (cfg : PatchedParser) (contentLength : Option Int) (contentEncoding : String)
    (defaultEncoding : Option String) (limit : Option JsNum) (bufEnc : Option BufferEncoderM)
    (isStream : Bool) (events : List StreamEvent) : RawState :=
  events.foldl (rawStep cfg contentLength contentEncoding defaultEncoding limit bufEnc isStream)
    (rawInit availableDecompressorNames decompressorKeys contentEncoding)

/-- Model of `rawBodyParser`: the single completion the callback receives
(`none` when the stream never terminates within the event list). -/
def rawBodyParser (availableDecompressorNames decompressorKeys : List String)
    (cfg : PatchedParser) (contentLength : Option Int) (contentEncoding : String)
    (defaultEncoding : Option String) (limit : Option JsNum) (bufEnc : Option BufferEncoderM)
    (isStream : Bool) (events : List StreamEvent) : Option RawOutcome :=
  (rawStateRun availableDecompressorNames decompressorKeys cfg contentLength contentEncoding
    defaultEncoding limit bufEnc isStream events).outcome

/-! ## Claim C2: limit enforcement -/

/-- Invariant of the engine run under a finite non-negative limit: as soon
as the received-byte counter exceeds the limit, the run is complete with
the 413 `entity.too.large` error carrying that limit and the counter. -/
def c2Inv (l : Int) (st : RawState) : Prop :=
  l < (st.received : Int) →
    st.complete = true ∧ st.outcome = some (.err (tooLargeErr (.fin l) st.received))

theorem rawStep_c2Inv (cfg : PatchedParser) (contentLength : Option Int)
    (contentEncoding : String) (defaultEncoding : Option String)
    (bufEnc : Option BufferEncoderM) (isStream : Bool) (l : Int)
    (st : RawState) (ev : StreamEvent) (hI : c2Inv l st) :
    c2Inv l (rawStep cfg contentLength contentEncoding defaultEncoding (some (.fin l)) bufEnc
      isStream st ev) := by
  unfold c2Inv at hI ⊢
  unfold rawStep
  by_cases hclosed : st.closed = true
  · simp only [hclosed, if_true]
    intro hlt
    exact ⟨(hI hlt).1, (hI hlt).2⟩
  · simp only [hclosed, Bool.false_eq_true, if_false]
    cases ev with
    | data chunk =>
      by_cases hcomp : st.complete = true
      · simp only [hcomp, if_true]
        intro hlt
        exact ⟨trivial, (hI hlt).2⟩
      · simp only [hcomp, Bool.false_eq_true, if_false]
        by_cases hex : l < ((st.received + chunk.length : Nat) : Int)
        · have hb : limitExceededVal (st.received + chunk.length) (.fin l) = true := by
            simp only [limitExceededVal, gt_iff_lt, decide_eq_true_eq]
            exact hex
          simp only [hb, if_true]
          by_cases hv : cfg.verify.isSome = true ∧ isStream = true
          · simp [hv]
          · simp [hv]
        · have hb : limitExceededVal (st.received + chunk.length) (.fin l) = false := by
            simp only [limitExceededVal, gt_iff_lt, decide_eq_false_iff_not]
            exact hex
          simp only [hb, Bool.false_eq_true, if_false]
          by_cases hv : cfg.verify.isSome = true ∧ isStream = true
          · simp only [hv, and_self, if_true]
            intro hlt
            simp at hlt
            exact absurd hlt hex
          · simp only [hv, if_false]
            intro hlt
            simp at hlt
            exact absurd hlt hex
    | endOk =>
      by_cases hcomp : st.complete = true
      · simp only [hcomp, if_true]
        intro hlt
        exact ⟨trivial, (hI hlt).2⟩
      · simp only [hcomp, Bool.false_eq_true, if_false]
        intro hlt
        exact absurd (hI hlt).1 hcomp
    | errEv code message =>
      by_cases hcomp : st.complete = true
      · simp only [hcomp, if_true]
        intro hlt
        exact ⟨trivial, (hI hlt).2⟩
      · simp only [hcomp, Bool.false_eq_true, if_false]
        by_cases h1 : code = some "Z_DATA_ERROR"
        · rw [if_pos h1]
          intro hlt
          exact absurd (hI hlt).1 hcomp
        · rw [if_neg h1]
          by_cases h2 : code = some "Z_BUF_ERROR"
          · rw [if_pos h2]
            intro hlt
            exact absurd (hI hlt).1 hcomp
          · rw [if_neg h2]
            intro hlt
            exact absurd (hI hlt).1 hcomp
    | aborted =>
      by_cases hcomp : st.complete = true
      · simp only [hcomp, if_true]
        intro hlt
        exact ⟨trivial, (hI hlt).2⟩
      · simp only [hcomp, Bool.false_eq_true, if_false]
        intro hlt
        exact absurd (hI hlt).1 hcomp
    | close =>
      intro hlt
      exact hI hlt

theorem rawFold_c2Inv (cfg : PatchedParser) (contentLength : Option Int)
    (contentEncoding : String) (defaultEncoding : Option String)
    (bufEnc : Option BufferEncoderM) (isStream : Bool) (l : Int) :
    ∀ (events : List StreamEvent) (st : RawState), c2Inv l st →
      c2Inv l (events.foldl
        (rawStep cfg contentLength contentEncoding defaultEncoding (some (.fin l)) bufEnc isStream)
        st) := by
  intro events
  induction events with
  | nil => intro st h; exact h
  | cons ev evs ih =>
    intro st h
    exact ih _ (rawStep_c2Inv cfg contentLength contentEncoding defaultEncoding bufEnc isStream
      l st ev h)

theorem rawInit_received (adn dk : List String) (ce : String) :
    (rawInit adn dk ce).received = 0 := by
  unfold rawInit
  cases decompressCheck adn dk ce <;> rfl

/-- C2 (amended): for every request stream handled by `rawBodyParser` under
a configured finite, non-negative limit, if the cumulative received-byte
counter ever exceeds the limit (equivalently: the final counter exceeds
it, since counting stops at completion), the single recorded completion is
the 413 `entity.too.large` error carrying that limit and the received
count, and the completion is never a successfully parsed body.  (A
negative configured limit escapes this: see the counterexample.) -/
theorem C2_limit_enforcement_amended (adn dk : List String) (cfg : PatchedParser)
    (contentLength : Option Int) (contentEncoding : String) (defaultEncoding : Option String)
    (bufEnc : Option BufferEncoderM) (isStream : Bool) (events : List StreamEvent)
    (l : Int) (h0 : 0 ≤ l)
    (hex : l < ((rawStateRun adn dk cfg contentLength contentEncoding defaultEncoding
      (some (.fin l)) bufEnc isStream events).received : Int)) :
    (rawStateRun adn dk cfg contentLength contentEncoding defaultEncoding (some (.fin l)) bufEnc
        isStream events).outcome
      = some (.err (tooLargeErr (.fin l)
          (rawStateRun adn dk cfg contentLength contentEncoding defaultEncoding (some (.fin l))
            bufEnc isStream events).received))
    ∧ ∀ v, rawBodyParser adn dk cfg contentLength contentEncoding defaultEncoding (some (.fin l))
        bufEnc isStream events ≠ some (.ok v) := by
  have hinit : c2Inv l (rawInit adn dk contentEncoding) := by
    intro hlt
    rw [rawInit_received] at hlt
    omega
  have hfin := rawFold_c2Inv cfg contentLength contentEncoding defaultEncoding bufEnc isStream l
    events _ hinit hex
  refine ⟨hfin.2, ?_⟩
  intro v hv
  unfold rawBodyParser at hv
  unfold rawStateRun at hv hfin
  rw [hfin.2] at hv
  simp at hv

/-- Minimal configuration for the C2 witness (its fields other than the
limit are irrelevant to the limit check). -/
def c2WitnessCfg : PatchedParser :=
  { matcher := [], inflate := .names ["identity"], limit := some (.fin 5),
    requireContentLength := false }

/-- C2 (witness): a six-byte chunk against limit 5 yields the 413 carrying
limit 5 and received 6, and no success. -/
theorem C2_limit_enforcement_witness :
    (rawStateRun ["identity"] [] c2WitnessCfg none "identity" none (some (.fin 5)) none false
        [.data "123456", .endOk]).outcome
      = some (.err (tooLargeErr (.fin 5)
          (rawStateRun ["identity"] [] c2WitnessCfg none "identity" none (some (.fin 5)) none false
            [.data "123456", .endOk]).received))
    ∧ ∀ v, rawBodyParser ["identity"] [] c2WitnessCfg none "identity" none (some (.fin 5)) none false
        [.data "123456", .endOk] ≠ some (.ok v) :=
  C2_limit_enforcement_amended ["identity"] [] c2WitnessCfg none "identity" none none false
    [.data "123456", .endOk] 5 (by decide) (by decide)

/-- Configuration of the C2 counterexample: a negative configured limit. -/
def c2CexCfg : PatchedParser :=
  { matcher := [], inflate := .names ["identity"], limit := some (.fin (-1)),
    requireContentLength := false, emptyResponse := some (.obj []) }

/-- C2 (counterexample): the claim as stated is false for a negative
(non-null) configured limit.  With limit -1 and an empty stream the
received count 0 exceeds the limit, yet the completion callback receives
the successful empty-value completion, never a 413. -/
theorem C2_negative_limit_cex :
    rawBodyParser ["identity"] [] c2CexCfg none "identity" none (some (.fin (-1))) none false
        [.endOk]
      = some (.ok (some (.obj [])))
    ∧ ((-1 : Int) < ((rawStateRun ["identity"] [] c2CexCfg none "identity" none
        (some (.fin (-1))) none false [.endOk]).received : Int)) :=
  ⟨rfl, by decide⟩

/-! ## Claim C7: the prototype-pollution guard of the default JSON parser -/

/-- The resolved default `application/json` configuration (the second entry
of `defaultPatchedParsers`). -/
def jsonDefaultCfg : PatchedParser :=
  { matcher := [.tmpl (some "application", some "json")],
    defaultEncoding := some "utf-8", encodings := some .all,
    parser := some jsonMediaParserFn, emptyResponse := some (.obj []),
    limit := some (.fin 20480), inflate := .names ["identity"], requireContentLength := false }

theorem jsonDefaultCfg_is_default : defaultPatchedParsers.get? 1 = some jsonDefaultCfg :=
  rfl

/-- The poisoned payload of the claim. -/
def c7BadPayload : String := "\x7b\"user\":\"tobi\",\"__proto__\":\"poison\"\x7d"

/-- The benign payload of the claim (uses `__proto__` only in a value). -/
def c7GoodPayload : String := "\x7b\"user\":\"tobi\",\"other\":\"uses __proto__ in a value\"\x7d"

/-- C7: with the built-in `application/json` parser, the engine completes
the poisoned payload with an error of type `entity.parse.failed` whose
message contains `__proto__ key not allowed`, while the payload that only
mentions `__proto__` inside a value parses successfully to the
corresponding object unchanged. -/
theorem C7_proto_pollution_guard :
    rawBodyParser ["identity"] [] jsonDefaultCfg none "identity" (some "utf-8")
        (some (.fin 20480)) (some nativeUtf8Encoder) true [.data c7BadPayload, .endOk]
      = some (.err { status := some 400,
                     message := "Parse error: __proto__ key not allowed in JSON body on main level",
                     eBody := some (.str c7BadPayload),
                     etype := some "entity.parse.failed" })
    ∧ strHasSub "Parse error: __proto__ key not allowed in JSON body on main level"
        "__proto__ key not allowed" = true
    ∧ rawBodyParser ["identity"] [] jsonDefaultCfg none "identity" (some "utf-8")
        (some (.fin 20480)) (some nativeUtf8Encoder) true [.data c7GoodPayload, .endOk]
      = some (.ok (some (.obj [("user", .str "tobi"),
                              ("other", .str "uses __proto__ in a value")]))) :=
  ⟨rfl, by decide, rfl⟩

/-! ## Claim C8: identity content-encoding handling -/

theorem charsetUnsupportedErr_etype (encoding : Option String) (abn : List String) :
    (charsetUnsupportedErr encoding abn).etype = some "charset.unsupported" := by
  unfold charsetUnsupportedErr
  split_ifs <;> rfl

theorem selectedCfgOf_identity_isSome (l : List PatchedParser) (adn : List String)
    (hl : l.isEmpty = false) : selectedCfgOf l "identity" adn ≠ none := by
  cases l with
  | nil => simp at hl
  | cons x xs =>
    intro h
    have hs : (selectedCfgOf (x :: xs) "identity" adn).isSome := by
      unfold selectedCfgOf
      rw [List.find?_isSome]
      exact ⟨x, List.mem_cons_self x xs, rfl⟩
    rw [h] at hs
    simp at hs

theorem rawStep_complete_stable (cfg : PatchedParser) (contentLength : Option Int)
    (contentEncoding : String) (defaultEncoding : Option String) (limit : Option JsNum)
    (bufEnc : Option BufferEncoderM) (isStream : Bool) (st : RawState) (ev : StreamEvent)
    (hc : st.complete = true) :
    (rawStep cfg contentLength contentEncoding defaultEncoding limit bufEnc isStream st ev).complete
        = true
    ∧ (rawStep cfg contentLength contentEncoding defaultEncoding limit bufEnc isStream st ev).outcome
        = st.outcome := by
  unfold rawStep
  by_cases hclosed : st.closed = true
  · simp [hclosed, hc]
  · simp only [hclosed, Bool.false_eq_true, if_false]
    cases ev <;> simp [hc]

theorem rawFold_complete_stable (cfg : PatchedParser) (contentLength : Option Int)
    (contentEncoding : String) (defaultEncoding : Option String) (limit : Option JsNum)
    (bufEnc : Option BufferEncoderM) (isStream : Bool) :
    ∀ (events : List StreamEvent) (st : RawState), st.complete = true →
      (events.foldl (rawStep cfg contentLength contentEncoding defaultEncoding limit bufEnc isStream)
        st).outcome = st.outcome := by
  intro events
  induction events with
  | nil => intro st _; rfl
  | cons ev evs ih =>
    intro st hc
    have hstep := rawStep_complete_stable cfg contentLength contentEncoding defaultEncoding limit
      bufEnc isStream st ev hc
    rw [List.foldl_cons, ih _ hstep.1, hstep.2]

/-- C8 (amended): `matchContentEncoding` returns true for `identity`
regardless of the inflate policy and of the available decompressor names,
so the dispatcher never reports a 415 `encoding.unsupported` error for an
identity-encoded request; when identity is not among the available
decompressor names, the rejection instead surfaces from the streaming
engine as a 415 error with message `Decompression failed: server does not
allow uncompressed requests.` whose type is `unsupported.content.encoding`
(the internal signal's own type survives the `err.type ||
"decompression.failed"` fallback, so the type is NOT
`decompression.failed` - see the counterexample). -/
theorem C8_identity_encoding_amended :
    (∀ (inflate : Inflate) (adn : List String),
      matchContentEncoding "identity" inflate adn = true)
    ∧ (∀ (parsers : List PatchedParser) (adn abn : List String) (rcl : Bool)
        (dcte : Option String) (dct : Option MediaType) (req : Request),
        contentEncodingOf req = "identity" →
        ∀ e, mediaTypeParser parsers adn abn rcl dcte dct req = .err e →
          e.etype ≠ some "encoding.unsupported")
    ∧ (∀ (adn dk : List String) (cfg : PatchedParser) (contentLength : Option Int)
        (defaultEncoding : Option String) (limit : Option JsNum)
        (bufEnc : Option BufferEncoderM) (isStream : Bool) (events : List StreamEvent),
        adn.contains "identity" = false →
        rawBodyParser adn dk cfg contentLength "identity" defaultEncoding limit bufEnc isStream
          events = some (.err identityNotAllowedErr)) := by
  refine ⟨fun _ _ => rfl, ?_, ?_⟩
  · intro parsers adn abn rcl dcte dct req hce e hmtp
    simp only [mediaTypeParser, hce] at hmtp
    split at hmtp
    · cases hmtp
      decide
    · split at hmtp
      · split at hmtp
        · exact absurd hmtp (by simp)
        · cases hmtp
          simp [mediaTypeInvalidErr]
      · split at hmtp
        · exact absurd hmtp (by simp)
        · split at hmtp
          · cases hmtp
            simp [mediaTypeUnsupportedErr]
          · split at hmtp
            · cases hmtp
              rw [charsetUnsupportedErr_etype]
              decide
            · split at hmtp
              · exact absurd hmtp (by simp)
              · split at hmtp
                · rename_i hcsne _ _ heq
                  exact absurd heq (selectedCfgOf_identity_isSome _ adn (by simpa using hcsne))
                · exact absurd hmtp (by simp)
  · intro adn dk cfg contentLength defaultEncoding limit bufEnc isStream events hid
    unfold rawBodyParser rawStateRun
    have hinit : rawInit adn dk "identity"
        = { complete := true, outcome := some (.err identityNotAllowedErr) } := by
      unfold rawInit decompressCheck
      have hmem : ¬ ("identity" ∈ adn) := by
        intro hm
        have h3 : adn.contains "identity" = true := List.elem_iff.mpr hm
        rw [hid] at h3
        simp at h3
      simp [hid, hmem]
    rw [hinit]
    exact rawFold_complete_stable cfg contentLength "identity" defaultEncoding limit bufEnc
      isStream events _ rfl

/-- Request of the C8 witness: identity-encoded POST. -/
def c8WitnessReq : Request :=
  { method := "POST", contentTypeHeader := some "application/json",
    contentLengthHeader := some "15", contentEncodingHeader := some "identity" }

/-- C8 (witness): the three parts of the amended statement at concrete
inputs - identity matches an empty inflate list with no available
decompressors; an identity-encoded request against gzip-only decompressors
never yields `encoding.unsupported` from the dispatcher; and the engine
rejects it with the 415 `unsupported.content.encoding` error. -/
theorem C8_identity_encoding_witness :
    matchContentEncoding "identity" (.names []) [] = true
    ∧ (∀ e, mediaTypeParser defaultPatchedParsers ["gzip"] ["utf-8", "utf8"] false none none
        c8WitnessReq = .err e → e.etype ≠ some "encoding.unsupported")
    ∧ rawBodyParser ["gzip"] ["gzip"] jsonDefaultCfg none "identity" (some "utf-8")
        (some (.fin 20480)) (some nativeUtf8Encoder) true [.endOk]
      = some (.err identityNotAllowedErr) :=
  ⟨C8_identity_encoding_amended.1 (.names []) [],
   fun e h => C8_identity_encoding_amended.2.1 defaultPatchedParsers ["gzip"] ["utf-8", "utf8"]
     false none none c8WitnessReq rfl e h,
   C8_identity_encoding_amended.2.2 ["gzip"] ["gzip"] jsonDefaultCfg none (some "utf-8")
     (some (.fin 20480)) (some nativeUtf8Encoder) true [.endOk] (by decide)⟩

/-- C8 (counterexample): the claim as stated is false in its last part:
when identity is requested but unavailable, the engine's 415 error has
type `unsupported.content.encoding`, not `decompression.failed` (the
thrown signal's `type` property wins the `||` fallback). -/
theorem C8_identity_type_cex :
    rawBodyParser ["gzip"] ["gzip"] jsonDefaultCfg none "identity" (some "utf-8")
        (some (.fin 20480)) (some nativeUtf8Encoder) true [.endOk]
      = some (.err identityNotAllowedErr)
    ∧ identityNotAllowedErr.etype = some "unsupported.content.encoding"
    ∧ identityNotAllowedErr.etype ≠ some "decompression.failed" :=
  ⟨rfl, rfl, by decide⟩

end MB
